import Mathlib

/-!
# Verification of the Jupiter client library (`dmitrymomot/jupiter`)

Shallow embedding of `entities.go`, `client.go` and `utils/amount.go`.

* Go functions returning `(T, error)` are embedded as functions into `T × Option Error`
  (`none` is the `nil` error).
* A `float64` is embedded as `Float64`: NaN, a signed infinity, or a signed finite value
  `mant * 2 ^ exp`; arithmetic rounds the exact result to the nearest float64, ties to even.
* A run-time panic (index out of range) is embedded as `none` of an `Option` result.
-/

namespace Jupiter

/-! ## float64 values -/

/-- A value of Go's `float64`: NaN, `±Inf`, or a finite value with sign `neg` and magnitude
`mant * 2 ^ exp` (so that `fin true 0 0` is the negative zero).  Several pairs `mant`, `exp`
denote the same number; comparison and formatting only depend on the number denoted. -/
inductive Float64 where
  | nan : Float64
  | inf (neg : Bool) : Float64
  | fin (neg : Bool) (mant : Nat) (exp : Int) : Float64
  deriving DecidableEq

namespace Float64

/-- The magnitude `mant * 2 ^ exp` of a finite float64. -/
def mag (mant : Nat) (exp : Int) : ℚ := (mant : ℚ) * (2 : ℚ) ^ exp

/-- The number denoted by a finite float64 with the given sign, mantissa and exponent. -/
def signed (neg : Bool) (mant : Nat) (exp : Int) : ℚ :=
  if neg then -mag mant exp else mag mant exp

/-- Go's `a < b` on float64: false whenever an operand is NaN. -/
def lt : Float64 → Float64 → Bool
  | nan, _ => false
  | _, nan => false
  | inf true, inf true => false
  | inf true, _ => true
  | _, inf true => false
  | inf false, _ => false
  | fin _ _ _, inf false => true
  | fin n1 m1 e1, fin n2 m2 e2 => decide (signed n1 m1 e1 < signed n2 m2 e2)

/-- Go's `a == b` on float64: false whenever an operand is NaN, and `-0 == +0`. -/
def eq : Float64 → Float64 → Bool
  | nan, _ => false
  | _, nan => false
  | inf n1, inf n2 => n1 == n2
  | inf _, fin _ _ _ => false
  | fin _ _ _, inf _ => false
  | fin n1 m1 e1, fin n2 m2 e2 => decide (signed n1 m1 e1 = signed n2 m2 e2)

/-- Go's `a <= b` on float64. -/
def le (a b : Float64) : Bool := a.lt b || a.eq b

/-- Whether the value is NaN. -/
def isNaN : Float64 → Bool
  | nan => true
  | _ => false

/-- The float64 zero value `+0`. -/
def zero : Float64 := fin false 0 0

/-- Loop of `bitLen`: number of binary digits of `n`, with fuel. -/
def bitLen.go : Nat → Nat → Nat
  | 0, _ => 0
  | fuel + 1, n => if n = 0 then 0 else bitLen.go fuel (n / 2) + 1

/-- Number of binary digits of `n`: `2 ^ (bitLen n - 1) ≤ n < 2 ^ bitLen n` for `0 < n`. -/
def bitLen (n : Nat) : Nat := bitLen.go n n

/-- The integer nearest to `N / D`, a tie going to the even neighbour. -/
def roundHalfEven (N D : Nat) : Nat :=
  let q := N / D
  let r := N % D
  if 2 * r < D then q else if D < 2 * r then q + 1 else if q % 2 = 0 then q else q + 1

/-- The binary exponent of `N / D` (for `0 < N`, `0 < D`): the `k` with
`2 ^ k ≤ N / D < 2 ^ (k + 1)`. -/
def binExp (N D : Nat) : Int :=
  let k : Int := (bitLen N : Int) - (bitLen D : Int)
  if D * 2 ^ k.toNat ≤ N * 2 ^ (-k).toNat then k else k - 1

/-- The exponent of the unit in the last place of the float64 nearest to `N / D`: 52 below
the binary exponent for a normal number, and `-1074` for a subnormal one. -/
def ulpExp (N D : Nat) : Int := max (binExp N D - 52) (-1074)

/-- The float64 nearest to `N / D` (`0 < D`) with sign `neg`, ties to even, with overflow to
infinity when the rounded magnitude reaches `2 ^ 1024` (its mantissa and exponent then have
`bitLen mant + e > 1024`): the rounding of IEEE 754 arithmetic and of the conversion of
constants. -/
def roundQ (neg : Bool) (N D : Nat) : Float64 :=
  if N = 0 then fin neg 0 0
  else
    let e := ulpExp N D
    let mant := roundHalfEven (N * 2 ^ (-e).toNat) (D * 2 ^ e.toNat)
    if 1024 < (bitLen mant : Int) + e then inf neg else fin neg mant e

/-- The conversion `float64(n)` of an unsigned integer. -/
def ofNat (n : Nat) : Float64 := roundQ false n 1

/-- Go's `a * b` on float64. -/
def mul : Float64 → Float64 → Float64
  | nan, _ => nan
  | _, nan => nan
  | inf n1, inf n2 => inf (xor n1 n2)
  | inf n1, fin n2 m _ => if m = 0 then nan else inf (xor n1 n2)
  | fin n1 m _, inf n2 => if m = 0 then nan else inf (xor n1 n2)
  | fin n1 m1 e1, fin n2 m2 e2 =>
    roundQ (xor n1 n2) (m1 * m2 * 2 ^ (e1 + e2).toNat) (2 ^ (-(e1 + e2)).toNat)

/-- Go's `a / b` on float64. -/
def div : Float64 → Float64 → Float64
  | nan, _ => nan
  | _, nan => nan
  | inf _, inf _ => nan
  | inf n1, fin n2 _ _ => inf (xor n1 n2)
  | fin n1 _ _, inf n2 => fin (xor n1 n2) 0 0
  | fin n1 m1 e1, fin n2 m2 e2 =>
    if m2 = 0 then (if m1 = 0 then nan else inf (xor n1 n2))
    else roundQ (xor n1 n2) (m1 * 2 ^ (e1 - e2).toNat) (m2 * 2 ^ (e2 - e1).toNat)

end Float64

/-! ## utils/amount.go -/

/-- Embedding of `math.Pow10`: the product of the entries `pow10postab32[n/32]` and
`pow10tab[n%32]` (the constants `1e0, 1e32, ..., 1e288` and `1e0, ..., 1e31`) for
`0 ≤ n ≤ 308`, the quotient of `pow10negtab32[-n/32]` and `pow10tab[-n%32]` for
`-323 ≤ n ≤ 0`, `+Inf` above and `0` below. -/
def Pow10 (n : Int) : Float64 :=
  if 0 ≤ n ∧ n ≤ 308 then
    (Float64.roundQ false (10 ^ (32 * (n.toNat / 32))) 1).mul
      (Float64.roundQ false (10 ^ (n.toNat % 32)) 1)
  else if -323 ≤ n ∧ n ≤ 0 then
    (Float64.roundQ false 1 (10 ^ (32 * ((-n).toNat / 32)))).div
      (Float64.roundQ false (10 ^ ((-n).toNat % 32)) 1)
  else if 0 < n then Float64.inf false
  else Float64.zero

/-- Embedding of `AmountToFloat64`: `float64(amount) / math.Pow10(int(decimals))`. -/
def AmountToFloat64 (amount : Nat) (decimals : Nat) : Float64 :=
  (Float64.ofNat amount).div (Pow10 (Int.ofNat decimals))

/-- The conversion `uint64(f)` of a float64: the value truncated toward zero.  The result
is `none` where the Go specification leaves it implementation-dependent: when the truncated
value cannot be represented in a `uint64` (NaN, an infinity, `2^64` and above, `-1` and
below). -/
def Float64.toUint64 : Float64 → Option Nat
  | Float64.nan => none
  | Float64.inf _ => none
  | Float64.fin neg m e =>
    let t := m * 2 ^ e.toNat / 2 ^ (-e).toNat
    if t = 0 then some 0
    else if neg then none
    else if t < 2 ^ 64 then some t else none

/-- Embedding of `AmountToUint64`: `uint64(amount * math.Pow10(int(decimals)))`. -/
def AmountToUint64 (amount : Float64) (decimals : Nat) : Option Nat :=
  (amount.mul (Pow10 (Int.ofNat decimals))).toUint64

/-- The `k` low decimal digits of `n`, most significant first. -/
def padDigits : Nat → Nat → List Char
  | 0, _ => []
  | k + 1, n => padDigits k (n / 10) ++ [Nat.digitChar (n % 10)]

/-- Embedding of `fmt.Sprintf("%.9f", amount)`: the exact decimal expansion of the float64
rounded to 9 fractional digits, ties to even. -/
def Sprintf9f : Float64 → List Char
  | Float64.nan => "NaN".toList
  | Float64.inf false => "+Inf".toList
  | Float64.inf true => "-Inf".toList
  | Float64.fin neg m e =>
    let n := Float64.roundHalfEven (m * 10 ^ 9 * 2 ^ e.toNat) (2 ^ (-e).toNat)
    (if neg then ['-'] else []) ++ (Nat.repr (n / 10 ^ 9)).toList ++ ['.']
      ++ padDigits 9 (n % 10 ^ 9)

/-- Embedding of `strings.TrimRight(s, cutset)` for a cutset of one character. -/
def TrimRight (s : List Char) (c : Char) : List Char := s.rdropWhile (fun x => x == c)

/-- Modelled from the spec: the helper `utils.TrimRightZeros`, declared in a file of the
repository that is not available; the specification says it strips the trailing zeros. -/
def TrimRightZeros (s : List Char) : List Char := TrimRight s '0'

/-- Embedding of `Float64ToString`. -/
def Float64ToString (amount : Float64) : String :=
  String.mk (TrimRight (TrimRightZeros (Sprintf9f amount)) '.')

/-- Embedding of `AmountToString`. -/
def AmountToString (amount : Nat) (decimals : Nat) : String :=
  Float64ToString (AmountToFloat64 amount decimals)

/-- The canonical decimal rendering of `a / 10 ^ d` in the words of the specification: the
decimal digits of `a div 10 ^ d`, followed, only when `a mod 10 ^ d` is non-zero, by `.` and
the `d`-digit zero-padded value of `a mod 10 ^ d` with its trailing zeros removed. -/
def canonicalDecimal (a d : Nat) : String :=
  String.mk ((Nat.repr (a / 10 ^ d)).toList ++
    (if a % 10 ^ d = 0 then [] else '.' :: (padDigits d (a % 10 ^ d)).rdropWhile (fun x => x == '0')))

/-! ## Errors -/

/-- Go `error` values produced by the library.  `errorf` is `fmt.Errorf` without `%w`,
`wrapf msg cause` is `fmt.Errorf(msg + ": %w", cause)`, `external` is an error coming from
`net/http`, `net/url` or `encoding/json`, and `numError` is a `*strconv.NumError`
(`syntax = true` for `ErrSyntax`, `false` for `ErrRange`). -/
inductive Error where
  | ErrNoRoute : Error
  | errorf (msg : String) : Error
  | wrapf (msg : String) (cause : Error) : Error
  | external (msg : String) : Error
  | numError (func num : String) (isSyntax : Bool) : Error
  deriving DecidableEq

/-! ## entities.go -/

/-- Fee object (`Fee`). -/
structure Fee where
  Amount : String
  Mint : String
  Pct : Float64
  deriving DecidableEq

/-- Market info object (`MarketInfo`). -/
structure MarketInfo where
  ID : String
  Label : String
  InputMint : String
  OutputMint : String
  NotEnoughLiquidity : Bool
  InAmount : String
  OutAmount : String
  MinInAmount : String
  MinOutAmount : String
  PriceImpactPct : Float64
  LpFee : Option Fee
  PlatformFee : Option Fee
  deriving DecidableEq

/-- The anonymous struct of `Route.Fees`. -/
structure RouteFees where
  SignatureFee : Int
  OpenOrdersDeposits : List Int
  AtaDeposits : List Int
  TotalFeeAndDeposits : Int
  MinimumSolForTransaction : Int
  deriving DecidableEq

/-- Route object (`Route`). -/
structure Route where
  InAmount : String
  OutAmount : String
  PriceImpactPct : Float64
  MarketInfos : List MarketInfo
  Amount : String
  SlippageBps : Int
  OtherAmountThreshold : String
  SwapMode : String
  Fees : Option RouteFees
  deriving DecidableEq

/-- The zero value `Route{}`. -/
def Route.zero : Route :=
  { InAmount := "", OutAmount := "", PriceImpactPct := Float64.zero, MarketInfos := [],
    Amount := "", SlippageBps := 0, OtherAmountThreshold := "", SwapMode := "", Fees := none }

/-- The response from a quote request: `type QuoteResponse []Route`. -/
abbrev QuoteResponse := List Route

/-- One iteration of the loop of `GetBestRoute`:
`if route.PriceImpactPct < bestRoute.PriceImpactPct { bestRoute = route }`. -/
def GetBestRoute.step (bestRoute route : Route) : Route :=
  if route.PriceImpactPct.lt bestRoute.PriceImpactPct then route else bestRoute

/-- Embedding of `QuoteResponse.GetBestRoute`. -/
def GetBestRoute (q : QuoteResponse) : Route × Option Error :=
  match q with
  | [] => (Route.zero, some Error.ErrNoRoute)
  | [r] => (r, none)
  | r0 :: rest => ((r0 :: rest).foldl GetBestRoute.step r0, none)

/-- A route with the given `Amount` label and price impact, all other fields zero. -/
def routeWith (label : String) (impact : Float64) : Route :=
  { Route.zero with Amount := label, PriceImpactPct := impact }

/-- The float64 nearest to `0.1`. -/
def f64_0_1 : Float64 := Float64.fin false 3602879701896397 (-55)

/-- The float64 `0.5`. -/
def f64_0_5 : Float64 := Float64.fin false 1 (-1)

/-- The example of the specification: impacts `0.5`, `0.1`, `0.1`. -/
def exampleRoutes : QuoteResponse :=
  [routeWith "r1" f64_0_5, routeWith "r2" f64_0_1, routeWith "r3" f64_0_1]

/-- Embedding of `strconv.Itoa`: the decimal rendering of an `int`. -/
def Itoa (i : Int) : String :=
  match i with
  | Int.ofNat n => Nat.repr n
  | Int.negSucc n => "-" ++ Nat.repr (n + 1)

/-- Map of routes indexed by position (`IndexedRoutesMap`).  The Go map
`map[string][]int` is an association list read with `List.lookup`. -/
structure IndexedRoutesMap where
  MintKeys : List String
  IndexedRouteMap : List (String × List Int)
  deriving DecidableEq

/-- The Go map read `r.IndexedRouteMap[strconv.Itoa(key)]`: the stored slice, or the nil
slice when the key has no entry. -/
def IndexedRoutesMap.adjacency (r : IndexedRoutesMap) (key : Nat) : List Int :=
  (r.IndexedRouteMap.lookup (Itoa (Int.ofNat key))).getD []

/-- The Go slice read `r.MintKeys[key]` with its bounds check: `none` is the run-time panic
for a negative or too large index. -/
def IndexedRoutesMap.mintAt (r : IndexedRoutesMap) (key : Int) : Option String :=
  if key < 0 then none else r.MintKeys[key.toNat]?

/-- First loop of `GetRoutesForMint`, from position `key` on over the remaining `MintKeys`:
`for key, val := range r.MintKeys { if val == mint { mintKeys = r.IndexedRouteMap[...] } }`. -/
def GetRoutesForMint.scan (r : IndexedRoutesMap) (mint : String) :
    Nat → List String → List Int → List Int
  | _, [], mintKeys => mintKeys
  | key, val :: rest, mintKeys =>
    GetRoutesForMint.scan r mint (key + 1) rest
      (if val = mint then r.adjacency key else mintKeys)

/-- Second loop of `GetRoutesForMint`:
`for _, key := range mintKeys { result = append(result, r.MintKeys[key]) }`. -/
def GetRoutesForMint.collect (r : IndexedRoutesMap) :
    List Int → List String → Option (List String)
  | [], result => some result
  | key :: rest, result =>
    match r.mintAt key with
    | none => none
    | some val => GetRoutesForMint.collect r rest (result ++ [val])

/-- Embedding of `IndexedRoutesMap.GetRoutesForMint`; `none` is an index-out-of-range
panic. -/
def GetRoutesForMint (r : IndexedRoutesMap) (mint : String) : Option (List String) :=
  GetRoutesForMint.collect r (GetRoutesForMint.scan r mint 0 r.MintKeys []) []

/-- The example of the specification: `mintKeys = [A, B, C]`, `indexedRouteMap = {"0": [1, 2]}`. -/
def exampleMap : IndexedRoutesMap :=
  { MintKeys := ["A", "B", "C"], IndexedRouteMap := [("0", [1, 2])] }

/-- A map in which the mint `A` occurs at positions 0 and 2. -/
def duplicateMap : IndexedRoutesMap :=
  { MintKeys := ["A", "B", "A"], IndexedRouteMap := [("0", [1]), ("2", [1, 0])] }

/-- A map in which the mint `A` occurs at positions 0 and 2 and the entry of position 2
holds the index 7, which is not a position of `MintKeys`. -/
def invalidIndexMap : IndexedRoutesMap :=
  { MintKeys := ["A", "B", "A"], IndexedRouteMap := [("0", [1]), ("2", [7])] }

/-- Price object (`Price`). -/
structure Price where
  ID : String
  MintSymbol : String
  VsToken : String
  VsTokenSymbol : String
  Price : Float64
  deriving DecidableEq

/-- Price map (`PriceMap`, a Go `map[string]Price`) as an association list. -/
abbrev PriceMap := List (String × Price)

/-- Parameters of a quote request (`QuoteParams`); `uint64` fields are naturals. -/
structure QuoteParams where
  InputMint : String
  OutputMint : String
  Amount : Nat
  SwapMode : String
  SlippageBps : Nat
  FeeBps : Nat
  OnlyDirectRoutes : Bool
  AsLegacyTransaction : Bool
  UserPublicKey : String
  deriving DecidableEq

/-- Parameters of a swap request (`SwapParams`); pointer fields are options. -/
structure SwapParams where
  Route : Route
  UserPublicKey : String
  WrapUnwrapSol : Option Bool
  FeeAccount : String
  AsLegacyTransaction : Option Bool
  ComputeUnitPriceMicroLamports : Option Int
  DestinationWallet : String
  deriving DecidableEq

/-- Response of a swap request (`SwapResponse`). -/
structure SwapResponse where
  SwapTransaction : String
  deriving DecidableEq

/-- Parameters of a price request (`PriceParams`). -/
structure PriceParams where
  IDs : String
  VsToken : String
  VsAmount : Float64
  deriving DecidableEq

/-- Parameters of the best swap (`BestSwapParams`). -/
structure BestSwapParams where
  UserPublicKey : String
  DestinationPublicKey : String
  FeeAmount : Nat
  FeeAccount : String
  InputMint : String
  OutputMint : String
  Amount : Nat
  SwapMode : String
  deriving DecidableEq

/-- Parameters of the exchange rate request (`ExchangeRateParams`). -/
structure ExchangeRateParams where
  InputMint : String
  OutputMint : String
  Amount : Nat
  SwapMode : String
  deriving DecidableEq

/-- Exchange rate (`Rate`); the `uint64` amounts are naturals below `2^64`. -/
structure Rate where
  InputMint : String
  OutputMint : String
  InAmount : Nat
  OutAmount : Nat
  deriving DecidableEq

/-! ## client.go -/

/-- The part of an `http.Response` the library reads: status code and body. -/
structure HttpResponse where
  StatusCode : Int
  Body : String
  deriving DecidableEq

/-- The `params interface{}` argument of `get` and `post`, by its dynamic type. -/
inductive Params where
  | quote (p : QuoteParams) : Params
  | price (p : PriceParams) : Params
  | values (v : List (String × List String)) : Params
  | swap (p : SwapParams) : Params
  deriving DecidableEq

/-- One request issued through `get` or `post`: method, URL before the query string, and
the parameters that are encoded into the query string or the JSON body. -/
structure Call where
  method : String
  url : String
  params : Params
  deriving DecidableEq

/-- Generic response envelope (`Response`); `json.RawMessage` is a string. -/
structure Response where
  Data : String
  TimeTaken : Float64
  ContextSlot : Int
  deriving DecidableEq

/-- The external collaborators of the client.  `roundTrip history call` is the outcome of
the body of `get` or `post` for `call` after the requests `history`: either the error it
returns (already wrapped by `get` or `post`) or the HTTP response.  The other fields are the
`encoding/json` decoders at the types the client decodes to. -/
structure Env where
  roundTrip : List Call → Call → Except Error HttpResponse
  decodeResponse : String → Except Error Response
  decodeQuotes : String → Except Error QuoteResponse
  decodeSwap : String → Except Error SwapResponse
  decodePrice : String → Except Error PriceMap
  decodeRoutesMap : String → Except Error IndexedRoutesMap

/-- The configuration held by `Client`. -/
structure Client where
  apiURL : String
  endpointQuote : String
  endpointSwap : String
  endpointPrice : String
  endpointRoutesMap : String
  deriving DecidableEq

/-- Embedding of `NewClient()` without options. -/
def NewClient : Client :=
  { apiURL := "https://quote-api.jup.ag/v4", endpointQuote := "/quote",
    endpointSwap := "/swap", endpointPrice := "/price",
    endpointRoutesMap := "/indexed-route-map" }

/-- The constant `http.StatusOK`. -/
def StatusOK : Int := 200

/-- Embedding of `Client.get`: the request is appended to the log of issued requests and its
outcome is given by the environment. -/
def Client.get (env : Env) (c : Client) (endpoint : String) (params : Params)
    (log : List Call) : Except Error HttpResponse × List Call :=
  let call : Call := { method := "GET", url := c.apiURL ++ endpoint, params := params }
  (env.roundTrip log call, log ++ [call])

/-- Embedding of `Client.post`. -/
def Client.post (env : Env) (c : Client) (endpoint : String) (params : Params)
    (log : List Call) : Except Error HttpResponse × List Call :=
  let call : Call := { method := "POST", url := c.apiURL ++ endpoint, params := params }
  (env.roundTrip log call, log ++ [call])

/-- The error `fmt.Errorf("unexpected status code: %d", code)`. -/
def unexpectedStatus (code : Int) : Error :=
  Error.errorf ("unexpected status code: " ++ Itoa code)

/-- Embedding of `Client.parseResponse`. -/
def Client.parseResponse (env : Env) (resp : HttpResponse) : Except Error String :=
  if resp.StatusCode ≠ StatusOK then
    Except.error (unexpectedStatus resp.StatusCode)
  else
    match env.decodeResponse resp.Body with
    | Except.error err => Except.error (Error.wrapf "failed to decode response" err)
    | Except.ok response => Except.ok response.Data

/-- Embedding of `Client.Quote`. -/
def Client.Quote (env : Env) (c : Client) (params : QuoteParams) (log : List Call) :
    (QuoteResponse × Option Error) × List Call :=
  match Client.get env c c.endpointQuote (Params.quote params) log with
  | (Except.error err, log) =>
    (([], some (Error.wrapf "failed to make quote request" err)), log)
  | (Except.ok resp, log) =>
    match Client.parseResponse env resp with
    | Except.error err => (([], some (Error.wrapf "failed to parse quote response" err)), log)
    | Except.ok data =>
      match env.decodeQuotes data with
      | Except.error err =>
        (([], some (Error.wrapf "failed to parse quote response" err)), log)
      | Except.ok quotes =>
        if quotes.length = 0 then
          (([], some (Error.errorf "no quotes returned")), log)
        else
          ((quotes, none), log)

/-- Embedding of `Client.Swap`. -/
def Client.Swap (env : Env) (c : Client) (params : SwapParams) (log : List Call) :
    (String × Option Error) × List Call :=
  match Client.post env c c.endpointSwap (Params.swap params) log with
  | (Except.error err, log) =>
    (("", some (Error.wrapf "failed to make swap request" err)), log)
  | (Except.ok resp, log) =>
    if resp.StatusCode ≠ StatusOK then
      (("", some (unexpectedStatus resp.StatusCode)), log)
    else
      match env.decodeSwap resp.Body with
      | Except.error err => (("", some (Error.wrapf "failed to decode response" err)), log)
      | Except.ok response => ((response.SwapTransaction, none), log)

/-- Embedding of `Client.Price`. -/
def Client.Price (env : Env) (c : Client) (params : PriceParams) (log : List Call) :
    (PriceMap × Option Error) × List Call :=
  match Client.get env c c.endpointPrice (Params.price params) log with
  | (Except.error err, log) =>
    (([], some (Error.wrapf "failed to make price request" err)), log)
  | (Except.ok resp, log) =>
    match Client.parseResponse env resp with
    | Except.error err => (([], some (Error.wrapf "failed to parse price response" err)), log)
    | Except.ok data =>
      match env.decodePrice data with
      | Except.error err =>
        (([], some (Error.wrapf "failed to parse price response" err)), log)
      | Except.ok price => ((price, none), log)

/-- The zero value `IndexedRoutesMap{}`. -/
def IndexedRoutesMap.zero : IndexedRoutesMap := { MintKeys := [], IndexedRouteMap := [] }

/-- Embedding of `strconv.FormatBool`. -/
def FormatBool (b : Bool) : String := if b then "true" else "false"

/-- Embedding of `Client.RoutesMap`. -/
def Client.RoutesMap (env : Env) (c : Client) (onlyDirectRoutes : Bool) (log : List Call) :
    (IndexedRoutesMap × Option Error) × List Call :=
  match Client.get env c c.endpointRoutesMap
      (Params.values [("onlyDirectRoutes", [FormatBool onlyDirectRoutes])]) log with
  | (Except.error err, log) =>
    ((IndexedRoutesMap.zero, some (Error.wrapf "failed to make routes map request" err)), log)
  | (Except.ok resp, log) =>
    match env.decodeRoutesMap resp.Body with
    | Except.error err =>
      ((IndexedRoutesMap.zero,
        some (Error.wrapf "failed to parse routes map response" err)), log)
    | Except.ok routesMap => ((routesMap, none), log)

/-- Modelled from the spec: the constant `SwapModeExactIn`, declared in a file of the
repository that is not available; the specification gives its value as "ExactIn". -/
def SwapModeExactIn : String := "ExactIn"

/-- Modelled from the spec: the constant `SwapModeExactOut`, declared in a file of the
repository that is not available; the specification gives its value as "ExactOut". -/
def SwapModeExactOut : String := "ExactOut"

/-- Embedding of `Client.BestSwap`; `utils.Pointer(true)` is `some true`. -/
def Client.BestSwap (env : Env) (c : Client) (params : BestSwapParams) (log : List Call) :
    (String × Option Error) × List Call :=
  let params : BestSwapParams :=
    if params.SwapMode = "" then { params with SwapMode := SwapModeExactIn } else params
  match Client.Quote env c
      { InputMint := params.InputMint
        OutputMint := params.OutputMint
        Amount := params.Amount
        FeeBps := params.FeeAmount
        SwapMode := params.SwapMode
        OnlyDirectRoutes := false
        SlippageBps := 0
        AsLegacyTransaction := false
        UserPublicKey := "" } log with
  | ((_, some err), log) => (("", some err), log)
  | ((routes, none), log) =>
    match GetBestRoute routes with
    | (_, some err) => (("", some err), log)
    | (route, none) =>
      match Client.Swap env c
          { Route := route
            UserPublicKey := params.UserPublicKey
            DestinationWallet := params.DestinationPublicKey
            FeeAccount := params.FeeAccount
            WrapUnwrapSol := some true
            AsLegacyTransaction := some true
            ComputeUnitPriceMicroLamports := none } log with
      | ((_, some err), log) => (("", some err), log)
      | ((swap, none), log) => ((swap, none), log)

/-! ### strconv.ParseInt at base 10 and bit size 64 -/

/-- The loop of `strconv.ParseUint(s, 10, 64)` over the remaining bytes, with `n` the value
accumulated so far.  `Except.error true` is `ErrSyntax`, `Except.error false` is `ErrRange`.
A byte that is not a decimal digit is a syntax error (letters are digits of value at least
the base; `_` is only accepted for base 0). -/
def ParseUint.loop : List Char → Nat → Except Bool Nat
  | [], n => Except.ok n
  | ch :: rest, n =>
    if '0' ≤ ch ∧ ch ≤ '9' then
      let d := ch.toNat - '0'.toNat
      -- cutoff = maxUint64/10 + 1
      if n ≥ (2 ^ 64 - 1) / 10 + 1 then Except.error false
      else
        let n10 := n * 10
        let n1 := (n10 + d) % 2 ^ 64
        if n1 < n10 ∨ n1 > 2 ^ 64 - 1 then Except.error false
        else ParseUint.loop rest n1
    else Except.error true

/-- Embedding of `strconv.ParseUint(s, 10, 64)`. -/
def ParseUint (s : String) : Except Bool Nat :=
  if s = "" then Except.error true else ParseUint.loop s.toList 0

/-- Embedding of `strconv.ParseInt(s, 10, 64)`.  The value Go returns next to a non-nil
error is not represented (the callers drop it). -/
def ParseInt (s0 : String) : Except Error Int :=
  if s0 = "" then Except.error (Error.numError "ParseInt" s0 true)
  else
    let neg : Bool := s0.toList.head? = some '-'
    let s : String :=
      if s0.toList.head? = some '+' ∨ s0.toList.head? = some '-' then
        String.mk s0.toList.tail
      else s0
    match ParseUint s with
    | Except.error true => Except.error (Error.numError "ParseInt" s0 true)
    | Except.error false => Except.error (Error.numError "ParseInt" s0 false)
    | Except.ok un =>
      -- cutoff = 1 << 63
      if !neg ∧ un ≥ 2 ^ 63 then Except.error (Error.numError "ParseInt" s0 false)
      else if neg ∧ un > 2 ^ 63 then Except.error (Error.numError "ParseInt" s0 false)
      else Except.ok (if neg then -(un : Int) else (un : Int))

/-- The conversion `uint64(i)` of an `int64`: reduction modulo `2^64`. -/
def uint64OfInt64 (i : Int) : Nat := (i % 2 ^ 64).toNat

/-- The part of `ExchangeRate` after the selection of the best route: parsing of the two
amount strings and construction of the rate. -/
def Client.ExchangeRate.amounts (result : Rate) (route : Route) : Rate × Option Error :=
  match ParseInt route.InAmount with
  | Except.error err => (result, some (Error.wrapf "failed to parse in amount" err))
  | Except.ok inAmount =>
    match ParseInt route.OutAmount with
    | Except.error err => (result, some (Error.wrapf "failed to parse out amount" err))
    | Except.ok outAmount =>
      ({ result with InAmount := uint64OfInt64 inAmount, OutAmount := uint64OfInt64 outAmount },
        none)

/-- Embedding of `Client.ExchangeRate`. -/
def Client.ExchangeRate (env : Env) (c : Client) (params : ExchangeRateParams)
    (log : List Call) : (Rate × Option Error) × List Call :=
  let result : Rate :=
    { InputMint := params.InputMint, OutputMint := params.OutputMint,
      InAmount := 0, OutAmount := 0 }
  match Client.Quote env c
      { InputMint := params.InputMint
        OutputMint := params.OutputMint
        Amount := params.Amount
        SwapMode := params.SwapMode
        OnlyDirectRoutes := false
        SlippageBps := 0
        FeeBps := 0
        AsLegacyTransaction := false
        UserPublicKey := "" } log with
  | ((_, some err), log) => ((result, some err), log)
  | ((routes, none), log) =>
    match GetBestRoute routes with
    | (_, some err) => ((result, some err), log)
    | (route, none) => (Client.ExchangeRate.amounts result route, log)

/-- Modelled from the spec: the amount parse the specification describes, "parse both route
amount strings as unsigned 64-bit integers": a non-empty string of decimal digits denoting
a value below `2^64`. -/
def parseUnsigned64 (s : String) : Option Nat :=
  if s ≠ "" ∧ s.toList.all Char.isDigit then
    let v := s.toList.foldl (fun n ch => n * 10 + (ch.toNat - '0'.toNat)) 0
    if v < 2 ^ 64 then some v else none
  else none

/-! ### Concrete environments -/

/-- An environment answering every request with status `code` and body `body`, whose
decoders accept every body and return the given payloads. -/
def constEnv (code : Int) (body : String) (quotes : QuoteResponse) : Env :=
  { roundTrip := fun _ _ => Except.ok { StatusCode := code, Body := body }
    decodeResponse := fun b => Except.ok { Data := b, TimeTaken := Float64.zero, ContextSlot := 0 }
    decodeQuotes := fun _ => Except.ok quotes
    decodeSwap := fun b => Except.ok { SwapTransaction := b }
    decodePrice := fun _ => Except.ok []
    decodeRoutesMap := fun _ => Except.ok IndexedRoutesMap.zero }

/-- A route whose amounts are the given strings. -/
def routeAmounts (inAmount outAmount : String) : Route :=
  { Route.zero with InAmount := inAmount, OutAmount := outAmount }

/-- The quote parameters used by the examples. -/
def exampleQuoteParams : QuoteParams :=
  { InputMint := "So11111111111111111111111111111111111111112"
    OutputMint := "EPjFWdd5AufqSSqeM2qN1xzybapC8G4wEGGkZwyTDt1v"
    Amount := 100000
    SwapMode := "ExactOut"
    SlippageBps := 0
    FeeBps := 0
    OnlyDirectRoutes := true
    AsLegacyTransaction := false
    UserPublicKey := "" }

/-- The exchange-rate parameters used by the examples (those of `TestExchangeRate`). -/
def exampleRateParams : ExchangeRateParams :=
  { InputMint := "So11111111111111111111111111111111111111112"
    OutputMint := "EPjFWdd5AufqSSqeM2qN1xzybapC8G4wEGGkZwyTDt1v"
    Amount := 100000
    SwapMode := "ExactOut" }

/-- The GET request issued by `Quote`. -/
def quoteCall (c : Client) (params : QuoteParams) : Call :=
  { method := "GET", url := c.apiURL ++ c.endpointQuote, params := Params.quote params }

/-- The POST request issued by `Swap`. -/
def swapCall (c : Client) (params : SwapParams) : Call :=
  { method := "POST", url := c.apiURL ++ c.endpointSwap, params := Params.swap params }

/-- The result of `Quote` as a function of the outcome of the request. -/
def Client.Quote.result (env : Env) (rt : Except Error HttpResponse) :
    QuoteResponse × Option Error :=
  match rt with
  | Except.error err => ([], some (Error.wrapf "failed to make quote request" err))
  | Except.ok resp =>
    match Client.parseResponse env resp with
    | Except.error err => ([], some (Error.wrapf "failed to parse quote response" err))
    | Except.ok data =>
      match env.decodeQuotes data with
      | Except.error err => ([], some (Error.wrapf "failed to parse quote response" err))
      | Except.ok quotes =>
        if quotes.length = 0 then ([], some (Error.errorf "no quotes returned"))
        else (quotes, none)

/-- The result of `Swap` as a function of the outcome of the request. -/
def Client.Swap.result (env : Env) (rt : Except Error HttpResponse) : String × Option Error :=
  match rt with
  | Except.error err => ("", some (Error.wrapf "failed to make swap request" err))
  | Except.ok resp =>
    if resp.StatusCode ≠ StatusOK then ("", some (unexpectedStatus resp.StatusCode))
    else
      match env.decodeSwap resp.Body with
      | Except.error err => ("", some (Error.wrapf "failed to decode response" err))
      | Except.ok response => (response.SwapTransaction, none)

/-- The parameters of `TestBestSwap`, with the swap mode left unset. -/
def exampleBestSwapParams : BestSwapParams :=
  { UserPublicKey := "8HwPMNxtFDrvxXn1fJsAYB258TnA6Ydr1DWCtVYgRW4W"
    DestinationPublicKey := ""
    FeeAmount := 0
    FeeAccount := ""
    InputMint := "So11111111111111111111111111111111111111112"
    OutputMint := "EPjFWdd5AufqSSqeM2qN1xzybapC8G4wEGGkZwyTDt1v"
    Amount := 100000
    SwapMode := "" }

/-! ## Lemmas on float64 comparison -/

namespace Float64

/-- Order-embedding of the non-NaN values into a linear order. -/
def key : Float64 → WithBot (WithTop ℚ)
  | nan => ⊥
  | inf true => ⊥
  | inf false => ((⊤ : WithTop ℚ) : WithBot (WithTop ℚ))
  | fin n m e => (((signed n m e : ℚ) : WithTop ℚ) : WithBot (WithTop ℚ))

theorem lt_irrefl (a : Float64) : a.lt a = false := by
  cases a with
  | nan => rfl
  | inf n => cases n <;> rfl
  | fin n m e => simp [lt]

theorem lt_iff_key {a b : Float64} (ha : a.isNaN = false) (hb : b.isNaN = false) :
    a.lt b = true ↔ a.key < b.key := by
  cases a with
  | nan => simp [isNaN] at ha
  | inf n =>
    cases b with
    | nan => simp [isNaN] at hb
    | inf k => cases n <;> cases k <;> simp [lt, key]
    | fin k m e => cases n <;> simp [lt, key]
  | fin n m e =>
    cases b with
    | nan => simp [isNaN] at hb
    | inf k =>
      cases k
      · simp only [lt, key, true_iff]
        exact WithBot.coe_lt_coe.mpr (WithTop.coe_lt_top _)
      · simp [lt, key]
    | fin k m2 e2 => simp [lt, key]

theorem eq_iff_key {a b : Float64} (ha : a.isNaN = false) (hb : b.isNaN = false) :
    a.eq b = true ↔ a.key = b.key := by
  cases a with
  | nan => simp [isNaN] at ha
  | inf n =>
    cases b with
    | nan => simp [isNaN] at hb
    | inf k => cases n <;> cases k <;> simp [eq, key]
    | fin k m e => cases n <;> simp [eq, key]
  | fin n m e =>
    cases b with
    | nan => simp [isNaN] at hb
    | inf k => cases k <;> simp [eq, key]
    | fin k m2 e2 => simp [eq, key]

theorem le_iff_key {a b : Float64} (ha : a.isNaN = false) (hb : b.isNaN = false) :
    a.le b = true ↔ a.key ≤ b.key := by
  simp only [le, Bool.or_eq_true, lt_iff_key ha hb, eq_iff_key ha hb]
  exact le_iff_lt_or_eq.symm

end Float64

/-! ## Best-route selection -/

theorem GetBestRoute.step_self (r : Route) : GetBestRoute.step r r = r := by
  simp [GetBestRoute.step]

/-- Loop invariant of `GetBestRoute`: the retained route is the first minimum of the routes
seen so far. -/
theorem GetBestRoute.foldl_inv (suf : List Route) :
    ∀ (pre1 : List Route) (r : Route) (mid : List Route),
      (∀ x ∈ pre1 ++ r :: mid ++ suf, x.PriceImpactPct.isNaN = false) →
      (∀ x ∈ pre1, r.PriceImpactPct.key < x.PriceImpactPct.key) →
      (∀ x ∈ mid, r.PriceImpactPct.key ≤ x.PriceImpactPct.key) →
      ∃ (pre : List Route) (b : Route) (post : List Route),
        pre1 ++ r :: mid ++ suf = pre ++ b :: post ∧
        suf.foldl GetBestRoute.step r = b ∧
        (∀ x ∈ pre, b.PriceImpactPct.key < x.PriceImpactPct.key) ∧
        (∀ x ∈ post, b.PriceImpactPct.key ≤ x.PriceImpactPct.key) := by
  induction suf with
  | nil =>
    intro pre1 r mid _ h1 h2
    exact ⟨pre1, r, mid, by simp, rfl, h1, h2⟩
  | cons y suf ih =>
    intro pre1 r mid hnum h1 h2
    have hr : r.PriceImpactPct.isNaN = false := hnum r (by simp)
    have hy : y.PriceImpactPct.isNaN = false := hnum y (by simp)
    rw [List.foldl_cons]
    by_cases hlt : y.PriceImpactPct.lt r.PriceImpactPct = true
    · have hk : y.PriceImpactPct.key < r.PriceImpactPct.key := (Float64.lt_iff_key hy hr).mp hlt
      have hstep : GetBestRoute.step r y = y := by simp [GetBestRoute.step, hlt]
      rw [hstep]
      have hlist : pre1 ++ r :: mid ++ y :: suf = (pre1 ++ r :: mid) ++ y :: [] ++ suf := by simp
      rw [hlist]
      apply ih (pre1 ++ r :: mid) y []
      · rw [← hlist]; exact hnum
      · intro x hx
        rcases List.mem_append.mp hx with hx | hx
        · exact lt_trans hk (h1 x hx)
        · rcases List.mem_cons.mp hx with hx | hx
          · rw [hx]; exact hk
          · exact lt_of_lt_of_le hk (h2 x hx)
      · intro x hx; simp at hx
    · have hk : r.PriceImpactPct.key ≤ y.PriceImpactPct.key := by
        rw [Float64.lt_iff_key hy hr] at hlt
        exact not_lt.mp hlt
      have hstep : GetBestRoute.step r y = r := by simp [GetBestRoute.step, hlt]
      rw [hstep]
      have hlist : pre1 ++ r :: mid ++ y :: suf = pre1 ++ r :: (mid ++ [y]) ++ suf := by simp
      rw [hlist]
      apply ih pre1 r (mid ++ [y])
      · rw [← hlist]; exact hnum
      · exact h1
      · intro x hx
        rcases List.mem_append.mp hx with hx | hx
        · exact h2 x hx
        · simp at hx; rw [hx]; exact hk

/-- On a non-empty response without NaN price impacts, `GetBestRoute` returns the first route
of minimal price impact, described by a split of the input. -/
theorem GetBestRoute.split (q : QuoteResponse) (hne : q ≠ [])
    (hnum : ∀ r ∈ q, r.PriceImpactPct.isNaN = false) :
    ∃ (pre : List Route) (b : Route) (post : List Route),
      q = pre ++ b :: post ∧ GetBestRoute q = (b, none) ∧
      (∀ x ∈ pre, b.PriceImpactPct.key < x.PriceImpactPct.key) ∧
      (∀ x ∈ post, b.PriceImpactPct.key ≤ x.PriceImpactPct.key) := by
  match q, hne, hnum with
  | [], hne, _ => exact absurd rfl hne
  | [r], _, _ => exact ⟨[], r, [], rfl, rfl, by simp, by simp⟩
  | r0 :: r1 :: rest, _, hnum =>
    have h := GetBestRoute.foldl_inv (r1 :: rest) [] r0 [] (by simpa using hnum)
      (by simp) (by simp)
    obtain ⟨pre, b, post, hq, hf, h1, h2⟩ := h
    refine ⟨pre, b, post, by simpa using hq, ?_, h1, h2⟩
    simp only [GetBestRoute, List.foldl_cons, GetBestRoute.step_self]
    rw [← List.foldl_cons, hf]

/-- C1: for a non-empty `QuoteResponse` whose price impacts are not NaN, `GetBestRoute`
returns, without error, the element `q[i]` at the smallest index `i` whose price impact is
less than or equal to that of every element (for a single-element response, `i = 0`). -/
theorem GetBestRoute_first_minimal (q : QuoteResponse) (hne : q ≠ [])
    (hnum : ∀ r ∈ q, r.PriceImpactPct.isNaN = false) :
    ∃ (i : Nat) (hi : i < q.length),
      GetBestRoute q = (q[i], none) ∧
      (∀ (j : Nat) (hj : j < q.length),
        (q[i]).PriceImpactPct.le (q[j]).PriceImpactPct = true) ∧
      (∀ (j : Nat) (hj : j < q.length), j < i →
        ¬ ∀ (k : Nat) (hk : k < q.length),
          (q[j]).PriceImpactPct.le (q[k]).PriceImpactPct = true) ∧
      (q.length = 1 → i = 0) := by
  obtain ⟨pre, b, post, rfl, hg, h1, h2⟩ := GetBestRoute.split q hne hnum
  have hi : pre.length < (pre ++ b :: post).length := by simp
  have hb : (pre ++ b :: post)[pre.length] = b := by
    rw [List.getElem_append_right (Nat.le_refl _)]
    simp
  have hbn : b.PriceImpactPct.isNaN = false := hnum b (by simp)
  refine ⟨pre.length, hi, ?_, ?_, ?_, ?_⟩
  · rw [hb]; exact hg
  · intro j hj
    have hjn := hnum _ (List.getElem_mem hj)
    rw [hb, Float64.le_iff_key hbn hjn]
    rcases List.mem_append.mp (List.getElem_mem hj) with hx | hx
    · exact le_of_lt (h1 _ hx)
    · rcases List.mem_cons.mp hx with hx | hx
      · rw [hx]
      · exact h2 _ hx
  · intro j hj hji hall
    have hjn := hnum _ (List.getElem_mem hj)
    have h := hall pre.length hi
    rw [hb, Float64.le_iff_key hjn hbn] at h
    have hmem : (pre ++ b :: post)[j] ∈ pre := by
      rw [List.getElem_append_left hji]
      exact List.getElem_mem hji
    exact absurd (h1 _ hmem) (not_lt.mpr h)
  · intro hlen
    simp at hlen
    omega

theorem exampleRoutes_nums : ∀ r ∈ exampleRoutes, r.PriceImpactPct.isNaN = false := by
  intro r hr
  simp only [exampleRoutes, List.mem_cons, List.mem_singleton, List.not_mem_nil, or_false] at hr
  rcases hr with h | h | h <;> subst h <;> rfl

/-- The example of the specification evaluates to the second route. -/
theorem GetBestRoute_exampleRoutes :
    GetBestRoute exampleRoutes = (routeWith "r2" f64_0_1, none) := by
  have h1 : f64_0_1.lt f64_0_5 = true := by
    simp only [f64_0_1, f64_0_5, Float64.lt, Float64.signed, Float64.mag]
    norm_num
  simp [GetBestRoute, exampleRoutes, GetBestRoute.step, routeWith, Float64.lt_irrefl, h1]

/-- Witness of C1 on the example of the specification. -/
theorem GetBestRoute_first_minimal_witness :
    ∃ (i : Nat) (hi : i < exampleRoutes.length),
      GetBestRoute exampleRoutes = (exampleRoutes[i], none) ∧
      (∀ (j : Nat) (hj : j < exampleRoutes.length),
        (exampleRoutes[i]).PriceImpactPct.le (exampleRoutes[j]).PriceImpactPct = true) ∧
      (∀ (j : Nat) (hj : j < exampleRoutes.length), j < i →
        ¬ ∀ (k : Nat) (hk : k < exampleRoutes.length),
          (exampleRoutes[j]).PriceImpactPct.le (exampleRoutes[k]).PriceImpactPct = true) ∧
      (exampleRoutes.length = 1 → i = 0) :=
  GetBestRoute_first_minimal exampleRoutes (by simp [exampleRoutes]) exampleRoutes_nums

theorem GetBestRoute_none_iff (q : QuoteResponse) : (GetBestRoute q).2 = none ↔ q ≠ [] := by
  match q with
  | [] => simp [GetBestRoute]
  | [r] => simp [GetBestRoute]
  | r0 :: r1 :: rest => simp [GetBestRoute]

/-- C2: `GetBestRoute` returns the zero route with `ErrNoRoute` on the empty response, its
error is `ErrNoRoute` exactly when the response is empty, it fails exactly when the response
is empty, and it returns the nil error exactly when the response is non-empty. -/
theorem GetBestRoute_error_iff_empty (q : QuoteResponse) :
    GetBestRoute [] = (Route.zero, some Error.ErrNoRoute) ∧
    ((GetBestRoute q).2 = some Error.ErrNoRoute ↔ q = []) ∧
    ((GetBestRoute q).2 ≠ none ↔ q = []) ∧
    ((GetBestRoute q).2 = none ↔ q ≠ []) := by
  refine ⟨rfl, ?_, ?_, ?_⟩ <;>
  · match q with
    | [] => simp [GetBestRoute]
    | [r] => simp [GetBestRoute]
    | r0 :: r1 :: rest => simp [GetBestRoute]

/-! ## Routes-map index -/

theorem GetRoutesForMint.scan_absent (r : IndexedRoutesMap) (mint : String)
    (l : List String) (hl : mint ∉ l) :
    ∀ (key : Nat) (acc : List Int), GetRoutesForMint.scan r mint key l acc = acc := by
  induction l with
  | nil => intro key acc; rfl
  | cons val rest ih =>
    intro key acc
    have hv : ¬ val = mint := fun h => hl (by simp [h])
    have hr : mint ∉ rest := fun h => hl (by simp [h])
    simp only [GetRoutesForMint.scan, hv, if_false]
    exact ih hr (key + 1) acc

/-- The first loop returns the adjacency list of the last matching position. -/
theorem GetRoutesForMint.scan_last (r : IndexedRoutesMap) (mint : String) (l : List String) :
    ∀ (p : Nat) (hp : p < l.length), l[p] = mint →
      (∀ (p2 : Nat) (h2 : p2 < l.length), p < p2 → l[p2] ≠ mint) →
      ∀ (key : Nat) (acc : List Int),
        GetRoutesForMint.scan r mint key l acc = r.adjacency (key + p) := by
  induction l with
  | nil => intro p hp; simp at hp
  | cons val rest ih =>
    intro p hp hmatch hlast key acc
    cases p with
    | zero =>
      have hv : val = mint := by simpa using hmatch
      have hr : mint ∉ rest := by
        intro hmem
        obtain ⟨k, hk, hkm⟩ := List.getElem_of_mem hmem
        exact hlast (k + 1) (by simpa using hk) (by omega) (by simpa using hkm)
      simp only [GetRoutesForMint.scan, hv, if_true]
      rw [GetRoutesForMint.scan_absent r mint rest hr]
      simp
    | succ p1 =>
      have hp1 : p1 < rest.length := by simpa using hp
      have hm1 : rest[p1] = mint := by simpa using hmatch
      have hl1 : ∀ (p2 : Nat) (h2 : p2 < rest.length), p1 < p2 → rest[p2] ≠ mint := by
        intro p2 h2 h12
        have := hlast (p2 + 1) (by simpa using h2) (by omega)
        simpa using this
      simp only [GetRoutesForMint.scan]
      rw [ih p1 hp1 hm1 hl1]
      congr 1
      omega

theorem GetRoutesForMint.collect_valid (r : IndexedRoutesMap) (keys : List Int) :
    ∀ (result : List String),
      (∀ j ∈ keys, 0 ≤ j ∧ j.toNat < r.MintKeys.length) →
      GetRoutesForMint.collect r keys result
        = some (result ++ keys.map (fun j => r.MintKeys.getD j.toNat "")) := by
  induction keys with
  | nil => intro result _; simp [GetRoutesForMint.collect]
  | cons key rest ih =>
    intro result hv
    obtain ⟨h0, hlt⟩ := hv key (by simp)
    have hat : r.mintAt key = some (r.MintKeys.getD key.toNat "") := by
      simp [IndexedRoutesMap.mintAt, not_lt.mpr h0, List.getD_eq_getElem?_getD,
        List.getElem?_eq_getElem hlt]
    simp only [GetRoutesForMint.collect, hat]
    rw [ih _ (fun j hj => hv j (by simp [hj]))]
    simp

theorem GetRoutesForMint.valid_toNat (r : IndexedRoutesMap) (keys : List Int)
    (hv : ∀ j ∈ keys, 0 ≤ j ∧ j < (r.MintKeys.length : Int)) :
    ∀ j ∈ keys, 0 ≤ j ∧ j.toNat < r.MintKeys.length := by
  intro j hj
  obtain ⟨h0, h1⟩ := hv j hj
  exact ⟨h0, by omega⟩

theorem IndexedRoutesMap.adjacency_eq_lookup (r : IndexedRoutesMap) (p : Nat) :
    r.adjacency p = (r.IndexedRouteMap.lookup (Nat.repr p)).getD [] := rfl

/-- The second loop panics as soon as one index is not a position of `MintKeys`. -/
theorem GetRoutesForMint.collect_invalid (r : IndexedRoutesMap) (keys : List Int) :
    ∀ (result : List String),
      (∃ j ∈ keys, j < 0 ∨ (r.MintKeys.length : Int) ≤ j) →
      GetRoutesForMint.collect r keys result = none := by
  induction keys with
  | nil => intro result h; simp at h
  | cons key rest ih =>
    intro result h
    by_cases hk : key < 0 ∨ (r.MintKeys.length : Int) ≤ key
    · have hat : r.mintAt key = none := by
        unfold IndexedRoutesMap.mintAt
        by_cases hneg : key < 0
        · simp [hneg]
        · have hle : r.MintKeys.length ≤ key.toNat := by omega
          simp [hneg, List.getElem?_eq_none hle]
      simp only [GetRoutesForMint.collect, hat]
    · have hrest : ∃ j ∈ rest, j < 0 ∨ (r.MintKeys.length : Int) ≤ j := by
        obtain ⟨j, hj, hbad⟩ := h
        rcases List.mem_cons.mp hj with hj | hj
        · rw [hj] at hbad; exact absurd hbad hk
        · exact ⟨j, hj, hbad⟩
      simp only [GetRoutesForMint.collect]
      split
      · rfl
      · exact ih _ hrest

/-- C3: if the mint `s` occurs in `MintKeys` at exactly one position `p` and every index of
the entry of `IndexedRouteMap` under the decimal string of `p` is a valid position,
`GetRoutesForMint` does not panic and returns the mints at the positions of that entry, in
the same order and of the same length (the empty list when `p` has no entry); if `s` does not
occur in `MintKeys`, the result is the empty list. -/
theorem GetRoutesForMint_unique_position (m : IndexedRoutesMap) (s : String) :
    (∀ (p : Nat) (hp : p < m.MintKeys.length), m.MintKeys[p] = s →
      (∀ (p2 : Nat) (h2 : p2 < m.MintKeys.length), m.MintKeys[p2] = s → p2 = p) →
      (∀ j ∈ (m.IndexedRouteMap.lookup (Nat.repr p)).getD [],
        0 ≤ j ∧ j < (m.MintKeys.length : Int)) →
      GetRoutesForMint m s
          = some (((m.IndexedRouteMap.lookup (Nat.repr p)).getD []).map
              (fun j => m.MintKeys.getD j.toNat "")) ∧
        (∀ res, GetRoutesForMint m s = some res →
          res.length = ((m.IndexedRouteMap.lookup (Nat.repr p)).getD []).length) ∧
        (m.IndexedRouteMap.lookup (Nat.repr p) = none → GetRoutesForMint m s = some [])) ∧
    (s ∉ m.MintKeys → GetRoutesForMint m s = some []) := by
  constructor
  · intro p hp hmatch huniq hvalid
    have hlast : ∀ (p2 : Nat) (h2 : p2 < m.MintKeys.length), p < p2 → m.MintKeys[p2] ≠ s := by
      intro p2 h2 hlt heq
      have := huniq p2 h2 heq
      omega
    have hres : GetRoutesForMint m s
        = some (((m.IndexedRouteMap.lookup (Nat.repr p)).getD []).map
            (fun j => m.MintKeys.getD j.toNat "")) := by
      unfold GetRoutesForMint
      rw [GetRoutesForMint.scan_last m s m.MintKeys p hp hmatch hlast 0 [], Nat.zero_add,
        IndexedRoutesMap.adjacency_eq_lookup,
        GetRoutesForMint.collect_valid m _ [] (GetRoutesForMint.valid_toNat m _ hvalid)]
      simp
    refine ⟨hres, ?_, ?_⟩
    · intro res h
      rw [hres] at h
      injection h with h
      rw [← h, List.length_map]
    · intro hnone
      rw [hres, hnone]
      rfl
  · intro habs
    unfold GetRoutesForMint
    rw [GetRoutesForMint.scan_absent m s m.MintKeys habs]
    rfl

/-- Witness of C3: the example of the specification. -/
theorem GetRoutesForMint_unique_position_witness :
    GetRoutesForMint exampleMap "A" = some ["B", "C"] ∧
    GetRoutesForMint exampleMap "absent" = some [] :=
  ⟨((GetRoutesForMint_unique_position exampleMap "A").1 0 (by decide) rfl
      (by decide) (by decide)).1,
    (GetRoutesForMint_unique_position exampleMap "absent").2 (by decide)⟩

/-- Counterexample to C4 as stated: the mint `A` occurs at positions 0 and 2, the entry of
the last position 2 is `[7]`, which is not a position of `MintKeys`, and `GetRoutesForMint`
panics with an index out of range instead of returning a list of mints. -/
theorem GetRoutesForMint_last_position_panics :
    invalidIndexMap.MintKeys = ["A", "B", "A"] ∧
    invalidIndexMap.IndexedRouteMap.lookup (Nat.repr 2) = some [7] ∧
    GetRoutesForMint invalidIndexMap "A" = none := by
  refine ⟨rfl, by decide, by decide⟩

/-- C4 (amended): when `p` is the last position of `MintKeys` holding the mint `s`, the
result of `GetRoutesForMint` is determined by the entry of `IndexedRouteMap` under the
decimal string of `p` alone.  When every index of that entry is a valid position, the result
is the list of the mints at these positions; when one index of that entry is not a valid
position, the call panics; when `p` has no entry, the result is the empty list; and any
other map with the same `MintKeys` and the same entry for `p` gives the same result,
whatever its other entries are. -/
theorem GetRoutesForMint_last_position (m : IndexedRoutesMap) (s : String) (p : Nat)
    (hp : p < m.MintKeys.length) (hmatch : m.MintKeys[p] = s)
    (hlast : ∀ (p2 : Nat) (h2 : p2 < m.MintKeys.length), p < p2 → m.MintKeys[p2] ≠ s) :
    ((∀ j ∈ (m.IndexedRouteMap.lookup (Nat.repr p)).getD [],
        0 ≤ j ∧ j < (m.MintKeys.length : Int)) →
      GetRoutesForMint m s
        = some (((m.IndexedRouteMap.lookup (Nat.repr p)).getD []).map
            (fun j => m.MintKeys.getD j.toNat ""))) ∧
    ((∃ j ∈ (m.IndexedRouteMap.lookup (Nat.repr p)).getD [],
        j < 0 ∨ (m.MintKeys.length : Int) ≤ j) →
      GetRoutesForMint m s = none) ∧
    (m.IndexedRouteMap.lookup (Nat.repr p) = none → GetRoutesForMint m s = some []) ∧
    (∀ m2 : IndexedRoutesMap, m2.MintKeys = m.MintKeys →
      m2.IndexedRouteMap.lookup (Nat.repr p) = m.IndexedRouteMap.lookup (Nat.repr p) →
      GetRoutesForMint m2 s = GetRoutesForMint m s) := by
  have hscan : ∀ m1 : IndexedRoutesMap, m1.MintKeys = m.MintKeys →
      GetRoutesForMint m1 s
        = GetRoutesForMint.collect m1 ((m1.IndexedRouteMap.lookup (Nat.repr p)).getD []) [] := by
    intro m1 hk
    unfold GetRoutesForMint
    rw [GetRoutesForMint.scan_last m1 s m1.MintKeys p (by rw [hk]; exact hp)
      (by simp only [hk]; exact hmatch)
      (by simp only [hk]; exact hlast) 0 [], Nat.zero_add,
      IndexedRoutesMap.adjacency_eq_lookup]
  have hcollect : ∀ (m1 m2 : IndexedRoutesMap), m1.MintKeys = m2.MintKeys →
      ∀ (keys : List Int) (acc : List String),
        GetRoutesForMint.collect m1 keys acc = GetRoutesForMint.collect m2 keys acc := by
    intro m1 m2 hk keys
    induction keys with
    | nil => intro acc; rfl
    | cons key rest ih =>
      intro acc
      simp only [GetRoutesForMint.collect, IndexedRoutesMap.mintAt, hk]
      split <;> simp_all
  refine ⟨?_, ?_, ?_, ?_⟩
  · intro hvalid
    rw [hscan m rfl, GetRoutesForMint.collect_valid m _ []
      (GetRoutesForMint.valid_toNat m _ hvalid)]
    simp
  · intro hbad
    rw [hscan m rfl]
    exact GetRoutesForMint.collect_invalid m _ [] hbad
  · intro hnone
    rw [hscan m rfl, hnone]
    rfl
  · intro m2 hk hadj
    rw [hscan m rfl, hscan m2 hk, hadj]
    exact hcollect m2 m hk _ _

/-- Witness of C4 (amended): the mint `A` occurs at positions 0 and 2 and the entry of
position 2 is the one resolved. -/
theorem GetRoutesForMint_last_position_witness :
    GetRoutesForMint duplicateMap "A" = some ["B", "A"] :=
  ((GetRoutesForMint_last_position duplicateMap "A" 2 (by decide) rfl
    (by decide)).1 (by decide))

/-! ## Exchange rate: parsing of the amounts -/

/-- C5 (evaluation of the code at the failing inputs): the amounts are parsed with the
signed `ParseInt`.  The amount `2^63`, a valid unsigned 64-bit integer, makes `ExchangeRate`
fail with a range error, and the signed string `-1`, not a valid unsigned integer, is
accepted and reported as `2^64 - 1`. -/
theorem ExchangeRate_amounts_parsed_signed :
    parseUnsigned64 "9223372036854775808" = some (2 ^ 63) ∧
    Client.ExchangeRate (constEnv 200 "" [routeAmounts "9223372036854775808" "1"]) NewClient
        exampleRateParams []
      = (({ InputMint := exampleRateParams.InputMint, OutputMint := exampleRateParams.OutputMint,
            InAmount := 0, OutAmount := 0 },
          some (Error.wrapf "failed to parse in amount"
            (Error.numError "ParseInt" "9223372036854775808" false))),
         [quoteCall NewClient
            { InputMint := exampleRateParams.InputMint
              OutputMint := exampleRateParams.OutputMint
              Amount := 100000, SwapMode := "ExactOut", SlippageBps := 0, FeeBps := 0
              OnlyDirectRoutes := false, AsLegacyTransaction := false, UserPublicKey := "" }]) ∧
    parseUnsigned64 "-1" = none ∧
    (Client.ExchangeRate (constEnv 200 "" [routeAmounts "-1" "1"]) NewClient
        exampleRateParams []).1
      = ({ InputMint := exampleRateParams.InputMint, OutputMint := exampleRateParams.OutputMint,
           InAmount := 18446744073709551615, OutAmount := 1 }, none) := by
  refine ⟨by decide, by decide, by decide, by decide⟩

/-! ## Endpoint operations -/

theorem Client.Quote_eq (env : Env) (c : Client) (params : QuoteParams) (log : List Call) :
    Client.Quote env c params log
      = (Client.Quote.result env (env.roundTrip log (quoteCall c params)),
          log ++ [quoteCall c params]) := by
  simp only [Client.Quote, Client.get, quoteCall, Client.Quote.result]
  generalize env.roundTrip log _ = rt
  cases rt with
  | error err => rfl
  | ok resp =>
    simp only
    cases Client.parseResponse env resp with
    | error err => rfl
    | ok data =>
      simp only
      cases env.decodeQuotes data with
      | error err => rfl
      | ok quotes =>
        simp only
        split <;> rfl

theorem Client.Swap_eq (env : Env) (c : Client) (params : SwapParams) (log : List Call) :
    Client.Swap env c params log
      = (Client.Swap.result env (env.roundTrip log (swapCall c params)),
          log ++ [swapCall c params]) := by
  simp only [Client.Swap, Client.post, swapCall, Client.Swap.result]
  generalize env.roundTrip log _ = rt
  cases rt with
  | error err => rfl
  | ok resp =>
    simp only
    split
    · rfl
    · cases env.decodeSwap resp.Body with
      | error err => rfl
      | ok r => rfl

theorem Client.Quote_log (env : Env) (c : Client) (params : QuoteParams) (log : List Call) :
    (Client.Quote env c params log).2 = log ++ [quoteCall c params] := by
  rw [Client.Quote_eq]

theorem Client.Swap_log (env : Env) (c : Client) (params : SwapParams) (log : List Call) :
    (Client.Swap env c params log).2 = log ++ [swapCall c params] := by
  rw [Client.Swap_eq]

/-- A successful `Quote` returns at least one route. -/
theorem Client.Quote_ok_nonempty (env : Env) (c : Client) (params : QuoteParams)
    (log : List Call) (h : (Client.Quote env c params log).1.2 = none) :
    (Client.Quote env c params log).1.1 ≠ [] := by
  revert h
  rw [Client.Quote_eq]
  simp only [Client.Quote.result]
  cases env.roundTrip log (quoteCall c params) with
  | error err => simp
  | ok resp =>
    simp only
    cases Client.parseResponse env resp with
    | error err => simp
    | ok data =>
      simp only
      cases env.decodeQuotes data with
      | error err => simp
      | ok quotes =>
        simp only
        split
        · simp
        · intro _ hq
          simp_all

/-- C6: when the transport succeeds and the unwrapped payload decodes to an empty list of
routes, `Quote` fails with the error "no quotes returned"; and whenever `Quote` returns the
nil error, its `QuoteResponse` has at least one route. -/
theorem Quote_no_empty_success (env : Env) (c : Client) (params : QuoteParams)
    (log : List Call) :
    (∀ (resp : HttpResponse) (data : String),
      env.roundTrip log (quoteCall c params) = Except.ok resp →
      Client.parseResponse env resp = Except.ok data →
      env.decodeQuotes data = Except.ok [] →
      (Client.Quote env c params log).1 = ([], some (Error.errorf "no quotes returned"))) ∧
    ((Client.Quote env c params log).1.2 = none →
      (Client.Quote env c params log).1.1 ≠ [] ∧
      1 ≤ (Client.Quote env c params log).1.1.length) := by
  constructor
  · intro resp data hrt hparse hdec
    rw [Client.Quote_eq, hrt]
    simp [Client.Quote.result, hparse, hdec]
  · intro h
    have hne := Client.Quote_ok_nonempty env c params log h
    exact ⟨hne, List.length_pos.mpr hne⟩

/-- Witness of C6: a status-200 response whose payload decodes to no route, and one whose
payload decodes to three routes. -/
theorem Quote_no_empty_success_witness :
    (Client.Quote (constEnv 200 "[]" []) NewClient exampleQuoteParams []).1
      = ([], some (Error.errorf "no quotes returned")) ∧
    1 ≤ (Client.Quote (constEnv 200 "" exampleRoutes) NewClient exampleQuoteParams []).1.1.length :=
  ⟨(Quote_no_empty_success (constEnv 200 "[]" []) NewClient exampleQuoteParams []).1
      { StatusCode := 200, Body := "[]" } "[]" rfl rfl rfl,
    ((Quote_no_empty_success (constEnv 200 "" exampleRoutes) NewClient exampleQuoteParams []).2
      (by simp [Client.Quote, Client.get, Client.parseResponse, constEnv, StatusOK,
        exampleRoutes])).2⟩

/-- C7 (evaluation of the code at the failing input): `RoutesMap` does not look at the
status code.  On a response with status 500 whose body decodes as a routes map it returns
that map with the nil error, while `Quote`, `Price` and `Swap` fail on the same response
with the unexpected-status error carrying the code 500. -/
theorem RoutesMap_ignores_status :
    (Client.RoutesMap (constEnv 500 "{}" []) NewClient true []).1
      = (IndexedRoutesMap.zero, none) ∧
    (Client.Quote (constEnv 500 "{}" []) NewClient exampleQuoteParams []).1
      = ([], some (Error.wrapf "failed to parse quote response"
          (Error.errorf "unexpected status code: 500"))) ∧
    (Client.Price (constEnv 500 "{}" []) NewClient
        { IDs := "SOL", VsToken := "", VsAmount := Float64.zero } []).1
      = ([], some (Error.wrapf "failed to parse price response"
          (Error.errorf "unexpected status code: 500"))) ∧
    (Client.Swap (constEnv 500 "{}" []) NewClient
        { Route := Route.zero, UserPublicKey := "", WrapUnwrapSol := none, FeeAccount := "",
          AsLegacyTransaction := none, ComputeUnitPriceMicroLamports := none,
          DestinationWallet := "" } []).1
      = ("", some (Error.errorf "unexpected status code: 500")) := by
  refine ⟨by decide, by decide, by decide, by decide⟩

/-- The status check of `parseResponse`: the unexpected-status error is returned exactly for
a status code other than 200, without consulting the decoder. -/
theorem Client.parseResponse_status (env : Env) (resp : HttpResponse) :
    (resp.StatusCode ≠ 200 →
      Client.parseResponse env resp = Except.error (unexpectedStatus resp.StatusCode)) ∧
    (resp.StatusCode = 200 →
      Client.parseResponse env resp
        = match env.decodeResponse resp.Body with
          | Except.error err => Except.error (Error.wrapf "failed to decode response" err)
          | Except.ok response => Except.ok response.Data) := by
  constructor
  · intro h
    simp [Client.parseResponse, StatusOK, h]
  · intro h
    simp [Client.parseResponse, StatusOK, h]

/-- Counterexample to C8 as stated: the status 201 lies in the range 200-299, and both
status checks (of `parseResponse` and of `Swap`) reject it with the unexpected-status
error. -/
theorem status_201_rejected :
    ((200 : Int) ≤ 201 ∧ (201 : Int) ≤ 299) ∧
    Client.parseResponse (constEnv 201 "{}" []) { StatusCode := 201, Body := "{}" }
      = Except.error (Error.errorf "unexpected status code: 201") ∧
    (Client.Swap (constEnv 201 "{}" []) NewClient
        { Route := Route.zero, UserPublicKey := "", WrapUnwrapSol := none, FeeAccount := "",
          AsLegacyTransaction := none, ComputeUnitPriceMicroLamports := none,
          DestinationWallet := "" } []).1
      = ("", some (Error.errorf "unexpected status code: 201")) := by
  refine ⟨by decide, rfl, by decide⟩

/-- C8 (amended): the status check of the response handling used by `Quote` and `Price`
(`parseResponse`) and the one of `Swap` reject a response with the unexpected-status error
carrying its status code exactly when the status code is not 200.  A status other than 200
is rejected whatever the decoders would do, and the status 200 leads to body decoding, whose
failure is the different error "failed to decode response". -/
theorem status_check_exactly_200 (env : Env) (resp : HttpResponse) :
    (Client.parseResponse env resp = Except.error (unexpectedStatus resp.StatusCode)
      ↔ resp.StatusCode ≠ 200) ∧
    ((Client.Swap.result env (Except.ok resp)) = ("", some (unexpectedStatus resp.StatusCode))
      ↔ resp.StatusCode ≠ 200) ∧
    (∀ (c : Client) (params : SwapParams) (log : List Call),
      env.roundTrip log (swapCall c params) = Except.ok resp →
      ((Client.Swap env c params log).1 = ("", some (unexpectedStatus resp.StatusCode))
        ↔ resp.StatusCode ≠ 200)) ∧
    (resp.StatusCode = 200 →
      Client.parseResponse env resp
        = match env.decodeResponse resp.Body with
          | Except.error err => Except.error (Error.wrapf "failed to decode response" err)
          | Except.ok response => Except.ok response.Data) := by
  have hswap : (Client.Swap.result env (Except.ok resp))
      = ("", some (unexpectedStatus resp.StatusCode)) ↔ resp.StatusCode ≠ 200 := by
    by_cases h : resp.StatusCode = 200
    · simp only [Client.Swap.result, StatusOK, h, ne_eq, not_true_eq_false, if_false,
        iff_false]
      cases env.decodeSwap resp.Body with
      | error err => simp [unexpectedStatus]
      | ok r => simp
    · simp [Client.Swap.result, StatusOK, h]
  refine ⟨?_, hswap, ?_, (Client.parseResponse_status env resp).2⟩
  · by_cases h : resp.StatusCode = 200
    · rw [(Client.parseResponse_status env resp).2 h]
      simp only [h, ne_eq, not_true_eq_false, iff_false]
      cases env.decodeResponse resp.Body with
      | error err => simp [unexpectedStatus]
      | ok r => simp
    · simp [(Client.parseResponse_status env resp).1 h, h]
  · intro c params log hrt
    rw [Client.Swap_eq, hrt]
    exact hswap

/-- Witness of C8 (amended): the status 204 is rejected by both status checks. -/
theorem status_check_exactly_200_witness :
    Client.parseResponse (constEnv 204 "" []) { StatusCode := 204, Body := "" }
      = Except.error (unexpectedStatus 204) ∧
    (Client.Swap (constEnv 204 "" []) NewClient
        { Route := Route.zero, UserPublicKey := "", WrapUnwrapSol := none, FeeAccount := "",
          AsLegacyTransaction := none, ComputeUnitPriceMicroLamports := none,
          DestinationWallet := "" } []).1 = ("", some (unexpectedStatus 204)) :=
  ⟨(status_check_exactly_200 (constEnv 204 "" []) { StatusCode := 204, Body := "" }).1.mpr
      (by decide),
    ((status_check_exactly_200 (constEnv 204 "" []) { StatusCode := 204, Body := "" }).2.2.1
      NewClient _ [] rfl).mpr (by decide)⟩

/-! ## BestSwap -/

/-- C9: `BestSwap` issues its quote with `InputMint`, `OutputMint` and `Amount` of the
parameters, `OnlyDirectRoutes` false and the swap mode of the parameters, or `ExactIn` when
that is empty.  When the quote fails this is the only request; when it succeeds,
`GetBestRoute` succeeds and the second and last request is the swap of the route chosen by
`GetBestRoute`, with the user key, destination wallet and fee account of the parameters and
with `WrapUnwrapSol` and `AsLegacyTransaction` both true. -/
theorem BestSwap_requests (env : Env) (c : Client) (p : BestSwapParams) (log : List Call)
    (qp : QuoteParams)
    (hqp : qp =
      { InputMint := p.InputMint
        OutputMint := p.OutputMint
        Amount := p.Amount
        SwapMode := if p.SwapMode = "" then SwapModeExactIn else p.SwapMode
        SlippageBps := 0
        FeeBps := p.FeeAmount
        OnlyDirectRoutes := false
        AsLegacyTransaction := false
        UserPublicKey := "" }) :
    ((Client.Quote env c qp log).1.2 ≠ none →
      (Client.BestSwap env c p log).2 = log ++ [quoteCall c qp]) ∧
    ((Client.Quote env c qp log).1.2 = none →
      (GetBestRoute (Client.Quote env c qp log).1.1).2 = none ∧
      (Client.BestSwap env c p log).2 =
        log ++ [quoteCall c qp,
          swapCall c
            { Route := (GetBestRoute (Client.Quote env c qp log).1.1).1
              UserPublicKey := p.UserPublicKey
              WrapUnwrapSol := some true
              FeeAccount := p.FeeAccount
              AsLegacyTransaction := some true
              ComputeUnitPriceMicroLamports := none
              DestinationWallet := p.DestinationPublicKey }]) := by
  have hunfold : Client.BestSwap env c p log =
      (match Client.Quote env c qp log with
      | ((_, some err), log) => (("", some err), log)
      | ((routes, none), log) =>
        match GetBestRoute routes with
        | (_, some err) => (("", some err), log)
        | (route, none) =>
          match Client.Swap env c
              { Route := route
                UserPublicKey := p.UserPublicKey
                DestinationWallet := p.DestinationPublicKey
                FeeAccount := p.FeeAccount
                WrapUnwrapSol := some true
                AsLegacyTransaction := some true
                ComputeUnitPriceMicroLamports := none } log with
          | ((_, some err), log) => (("", some err), log)
          | ((swap, none), log) => ((swap, none), log)) := by
    rw [hqp]
    unfold Client.BestSwap
    by_cases hm : p.SwapMode = ""
    · simp [hm]
    · simp [hm]
  have hlog := Client.Quote_log env c qp log
  constructor
  · intro herr
    rw [hunfold]
    rcases hq : Client.Quote env c qp log with ⟨⟨routes, e⟩, log1⟩
    rw [hq] at herr hlog
    cases e with
    | none => exact absurd rfl herr
    | some err => simpa using hlog
  · intro hok
    have hne := Client.Quote_ok_nonempty env c qp log hok
    have hbest : (GetBestRoute (Client.Quote env c qp log).1.1).2 = none :=
      (GetBestRoute_none_iff _).mpr hne
    refine ⟨hbest, ?_⟩
    rw [hunfold]
    rcases hq : Client.Quote env c qp log with ⟨⟨routes, e⟩, log1⟩
    rw [hq] at hok hlog hbest
    simp only at hok hlog hbest
    subst hok
    subst hlog
    simp only
    rcases hg : GetBestRoute routes with ⟨route, ge⟩
    rw [hg] at hbest
    simp only at hbest
    subst hbest
    simp only
    rcases hs : Client.Swap env c
        { Route := route
          UserPublicKey := p.UserPublicKey
          DestinationWallet := p.DestinationPublicKey
          FeeAccount := p.FeeAccount
          WrapUnwrapSol := some true
          AsLegacyTransaction := some true
          ComputeUnitPriceMicroLamports := none } (log ++ [quoteCall c qp])
      with ⟨⟨tx, se⟩, log2⟩
    have hslog := Client.Swap_log env c
        { Route := route
          UserPublicKey := p.UserPublicKey
          DestinationWallet := p.DestinationPublicKey
          FeeAccount := p.FeeAccount
          WrapUnwrapSol := some true
          AsLegacyTransaction := some true
          ComputeUnitPriceMicroLamports := none } (log ++ [quoteCall c qp])
    rw [hs] at hslog
    simp only at hslog
    cases se with
    | none => simpa using hslog
    | some err => simpa using hslog

/-- Witness of C9: with the swap mode unset and a quote of three routes, the two requests
of `BestSwap` are the `ExactIn` quote and the swap of the second route. -/
theorem BestSwap_requests_witness :
    (Client.BestSwap (constEnv 200 "tx" exampleRoutes) NewClient exampleBestSwapParams []).2 =
      [quoteCall NewClient
          { InputMint := "So11111111111111111111111111111111111111112"
            OutputMint := "EPjFWdd5AufqSSqeM2qN1xzybapC8G4wEGGkZwyTDt1v"
            Amount := 100000
            SwapMode := "ExactIn"
            SlippageBps := 0
            FeeBps := 0
            OnlyDirectRoutes := false
            AsLegacyTransaction := false
            UserPublicKey := "" },
        swapCall NewClient
          { Route := routeWith "r2" f64_0_1
            UserPublicKey := "8HwPMNxtFDrvxXn1fJsAYB258TnA6Ydr1DWCtVYgRW4W"
            WrapUnwrapSol := some true
            FeeAccount := ""
            AsLegacyTransaction := some true
            ComputeUnitPriceMicroLamports := none
            DestinationWallet := "" }] := by
  have h := ((BestSwap_requests (constEnv 200 "tx" exampleRoutes) NewClient
    exampleBestSwapParams []
    { InputMint := "So11111111111111111111111111111111111111112"
      OutputMint := "EPjFWdd5AufqSSqeM2qN1xzybapC8G4wEGGkZwyTDt1v"
      Amount := 100000
      SwapMode := "ExactIn"
      SlippageBps := 0
      FeeBps := 0
      OnlyDirectRoutes := false
      AsLegacyTransaction := false
      UserPublicKey := "" } (by decide)).2 (by decide)).2
  have hq : (Client.Quote (constEnv 200 "tx" exampleRoutes) NewClient
      { InputMint := "So11111111111111111111111111111111111111112"
        OutputMint := "EPjFWdd5AufqSSqeM2qN1xzybapC8G4wEGGkZwyTDt1v"
        Amount := 100000
        SwapMode := "ExactIn"
        SlippageBps := 0
        FeeBps := 0
        OnlyDirectRoutes := false
        AsLegacyTransaction := false
        UserPublicKey := "" } []).1.1 = exampleRoutes := rfl
  rw [hq, GetBestRoute_exampleRoutes] at h
  exact h

/-! ## Amount codec: rounding to float64 and decimal rendering -/

namespace Float64

theorem bitLen.go_zero (fuel : Nat) : bitLen.go fuel 0 = 0 := by
  cases fuel <;> simp [bitLen.go]

theorem bitLen.go_spec (fuel : Nat) : ∀ n : Nat, n ≤ fuel → 0 < n →
    2 ^ (bitLen.go fuel n - 1) ≤ n ∧ n < 2 ^ bitLen.go fuel n ∧ 0 < bitLen.go fuel n := by
  induction fuel with
  | zero => intro n h1 h2; omega
  | succ f ih =>
    intro n hle hpos
    have hn : n ≠ 0 := by omega
    simp only [bitLen.go, hn, if_false]
    by_cases h2 : n / 2 = 0
    · rw [h2, bitLen.go_zero]
      have : n = 1 := by omega
      subst this
      simp
    · obtain ⟨h3, h4, h5⟩ := ih (n / 2) (by omega) (by omega)
      refine ⟨?_, ?_, by omega⟩
      · have : bitLen.go f (n / 2) + 1 - 1 = (bitLen.go f (n / 2) - 1) + 1 := by omega
        rw [this, pow_succ]
        omega
      · rw [pow_succ]
        omega

theorem bitLen_spec (n : Nat) (h : 0 < n) :
    2 ^ (bitLen n - 1) ≤ n ∧ n < 2 ^ bitLen n ∧ 0 < bitLen n :=
  bitLen.go_spec n n (Nat.le_refl n) h

/-- Integer form of the rounding error: twice the distance is at most the denominator. -/
theorem roundHalfEven_err (N D : Nat) (hD : 0 < D) :
    2 * D * roundHalfEven N D ≤ 2 * N + D ∧ 2 * N ≤ 2 * D * roundHalfEven N D + D := by
  have hN : D * (N / D) + N % D = N := Nat.div_add_mod N D
  have hr : N % D < D := Nat.mod_lt N hD
  have e1 : 2 * D * (N / D) = 2 * (D * (N / D)) := by ring
  have e2 : 2 * D * (N / D + 1) = 2 * (D * (N / D)) + 2 * D := by ring
  unfold roundHalfEven
  simp only
  split
  · rw [e1]; omega
  · split
    · rw [e2]; omega
    · split
      · rw [e1]; omega
      · rw [e2]; omega

/-- Integer form of uniqueness: an integer strictly within one half of `N / D` is the
rounded value. -/
theorem roundHalfEven_unique (N D z : Nat) (hD : 0 < D)
    (h1 : 2 * N < 2 * D * z + D) (h2 : 2 * D * z < 2 * N + D) : roundHalfEven N D = z := by
  have hN : D * (N / D) + N % D = N := Nat.div_add_mod N D
  have hr : N % D < D := Nat.mod_lt N hD
  have key : ∀ q : Nat, 2 * (D * q) < 2 * (D * z) + 2 * D → 2 * (D * z) < 2 * (D * q) + 2 * D →
      q = z := by
    intro q hq1 hq2
    rcases Nat.lt_trichotomy q z with hlt | heq | hgt
    · have := Nat.mul_le_mul_left D (Nat.succ_le_of_lt hlt)
      rw [Nat.mul_succ] at this
      omega
    · exact heq
    · have := Nat.mul_le_mul_left D (Nat.succ_le_of_lt hgt)
      rw [Nat.mul_succ] at this
      omega
  unfold roundHalfEven
  simp only
  have e1 : 2 * D * z = 2 * (D * z) := by ring
  rw [e1] at h1 h2
  split
  · apply key; omega; omega
  · split
    · apply key
      · rw [Nat.mul_add]; omega
      · rw [Nat.mul_add]; omega
    · exfalso
      have h3 : 2 * (N % D) = D := by omega
      rcases Nat.lt_trichotomy (N / D) z with hlt | heq | hgt
      · have := Nat.mul_le_mul_left D (Nat.succ_le_of_lt hlt)
        rw [Nat.mul_succ] at this
        omega
      · rw [heq] at hN; omega
      · have := Nat.mul_le_mul_left D (Nat.succ_le_of_lt hgt)
        rw [Nat.mul_succ] at this
        omega

end Float64

namespace Float64

theorem two_zpow_split (e : ℤ) :
    ((2 : ℚ) ^ e.toNat) / (2 : ℚ) ^ (-e).toNat = (2 : ℚ) ^ e := by
  rcases le_total 0 e with h | h
  · have h1 : (-e).toNat = 0 := by omega
    have h2 : (e.toNat : ℤ) = e := Int.toNat_of_nonneg h
    rw [h1, pow_zero, div_one, ← zpow_natCast, h2]
  · have h1 : e.toNat = 0 := by omega
    have h2 : ((-e).toNat : ℤ) = -e := Int.toNat_of_nonneg (by omega)
    rw [h1, pow_zero, one_div, ← zpow_natCast, h2, zpow_neg, inv_inv]

theorem binExp_le (N D : Nat) (hN : 0 < N) (hD : 0 < D) :
    (2 : ℚ) ^ binExp N D ≤ (N : ℚ) / D := by
  have hDq : (0 : ℚ) < D := by exact_mod_cast hD
  unfold binExp
  simp only
  split
  · rename_i h
    have hq : (D : ℚ) * 2 ^ ((bitLen N : ℤ) - bitLen D).toNat
        ≤ (N : ℚ) * 2 ^ (-((bitLen N : ℤ) - bitLen D)).toNat := by exact_mod_cast h
    rw [le_div_iff₀ hDq, ← two_zpow_split, div_mul_eq_mul_div, div_le_iff₀ (by positivity)]
    linarith
  · obtain ⟨h1, _, h3⟩ := bitLen_spec N hN
    obtain ⟨_, h2, _⟩ := bitLen_spec D hD
    have e1 : (bitLen N : ℤ) - bitLen D - 1 = ((bitLen N - 1 : ℕ) : ℤ) - (bitLen D : ℕ) := by
      omega
    rw [e1, zpow_sub₀ (by norm_num), zpow_natCast, zpow_natCast]
    have h1q : (2 : ℚ) ^ (bitLen N - 1) ≤ N := by exact_mod_cast h1
    have h2q : (D : ℚ) ≤ 2 ^ bitLen D := by exact_mod_cast le_of_lt h2
    exact div_le_div₀ (by positivity) h1q hDq h2q

theorem bitLen_le_of_lt (m b : Nat) (h : m < 2 ^ b) : bitLen m ≤ b := by
  rcases Nat.eq_zero_or_pos m with h0 | h0
  · subst h0
    simp [bitLen, bitLen.go_zero]
  · obtain ⟨h1, _, _⟩ := bitLen_spec m h0
    have : 2 ^ (bitLen m - 1) < 2 ^ b := lt_of_le_of_lt h1 h
    have := (Nat.pow_lt_pow_iff_right (by norm_num : 1 < 2)).mp this
    omega

theorem roundHalfEven_abs (N D : Nat) (hD : 0 < D) :
    |(roundHalfEven N D : ℚ) - (N : ℚ) / D| ≤ 1 / 2 := by
  have hDq : (0 : ℚ) < D := by exact_mod_cast hD
  obtain ⟨h1, h2⟩ := roundHalfEven_err N D hD
  have a1 : (2 : ℚ) * D * (roundHalfEven N D : ℚ) ≤ 2 * N + D := by exact_mod_cast h1
  have a2 : (2 : ℚ) * N ≤ 2 * D * (roundHalfEven N D : ℚ) + D := by exact_mod_cast h2
  have hx : (N : ℚ) = (N : ℚ) / D * D := by field_simp
  generalize (N : ℚ) / D = x at hx
  generalize (roundHalfEven N D : ℚ) = m at a1 a2
  rw [hx] at a1 a2
  rw [abs_le]
  constructor
  · by_contra h
    push_neg at h
    have := mul_lt_mul_of_pos_right h hDq
    linarith
  · by_contra h
    push_neg at h
    have := mul_lt_mul_of_pos_right h hDq
    linarith

theorem roundHalfEven_eq_of_abs (N D z : Nat) (hD : 0 < D)
    (h : |(z : ℚ) - (N : ℚ) / D| < 1 / 2) : roundHalfEven N D = z := by
  have hDq : (0 : ℚ) < D := by exact_mod_cast hD
  have hx : (N : ℚ) = (N : ℚ) / D * D := by field_simp
  rw [abs_lt] at h
  obtain ⟨h1, h2⟩ := h
  have b1 := mul_lt_mul_of_pos_right h1 hDq
  have b2 := mul_lt_mul_of_pos_right h2 hDq
  rw [sub_mul, ← hx] at b1 b2
  apply roundHalfEven_unique N D z hD
  · have : (2 : ℚ) * N < 2 * D * z + D := by linarith
    exact_mod_cast this
  · have : (2 : ℚ) * D * z < 2 * N + D := by linarith
    exact_mod_cast this

/-- The float64 nearest to a positive `N / D < 2 ^ B`: its unit in the last place is at most
`2 ^ max (B - 53) (-1074)`, it is within half a unit of `N / D`, and it is `N / D` itself
when that is a multiple of the unit. -/
theorem roundQ_spec (N D : Nat) (hN : 0 < N) (hD : 0 < D) (B : ℤ)
    (hB : (N : ℚ) / D < 2 ^ B) (hB2 : B ≤ 1023) :
    ∃ (m : Nat) (e : ℤ), roundQ false N D = fin false m e ∧ e ≤ max (B - 53) (-1074) ∧
      |mag m e - (N : ℚ) / D| ≤ 2 ^ e / 2 ∧
      (∀ z : ℕ, (N : ℚ) / D = z * 2 ^ e → mag m e = (N : ℚ) / D) := by
  have hDq : (0 : ℚ) < D := by exact_mod_cast hD
  have hk := binExp_le N D hN hD
  have hkB : binExp N D < B :=
    (zpow_lt_zpow_iff_right₀ (by norm_num : (1 : ℚ) < 2)).mp (lt_of_le_of_lt hk hB)
  set e := ulpExp N D with he
  have heB : e ≤ max (B - 53) (-1074) := by
    rw [he, ulpExp]
    exact max_le_max (by omega) (le_refl _)
  set m := roundHalfEven (N * 2 ^ (-e).toNat) (D * 2 ^ e.toNat) with hm
  have hD2 : 0 < D * 2 ^ e.toNat := by positivity
  -- the scaled quotient
  have hscale : ((N * 2 ^ (-e).toNat : ℕ) : ℚ) / ((D * 2 ^ e.toNat : ℕ) : ℚ)
      = (N : ℚ) / D / 2 ^ e := by
    rw [← two_zpow_split e]
    push_cast
    field_simp
  have h2e : (0 : ℚ) < 2 ^ e := zpow_pos (by norm_num) e
  have herrq : |(m : ℚ) - (N : ℚ) / D / 2 ^ e| ≤ 1 / 2 := by
    rw [← hscale, hm]
    exact roundHalfEven_abs _ _ hD2
  have hmag : mag m e - (N : ℚ) / D = ((m : ℚ) - (N : ℚ) / D / 2 ^ e) * 2 ^ e := by
    unfold mag
    field_simp
    ring
  have hval : |mag m e - (N : ℚ) / D| ≤ 2 ^ e / 2 := by
    rw [hmag, abs_mul, abs_of_pos h2e]
    calc |(m : ℚ) - (N : ℚ) / D / 2 ^ e| * 2 ^ e ≤ 1 / 2 * 2 ^ e :=
          mul_le_mul_of_nonneg_right herrq (le_of_lt h2e)
      _ = 2 ^ e / 2 := by ring
  have he970 : e ≤ 970 := le_trans heB (max_le (by omega) (by norm_num))
  -- no overflow
  have hno : ¬ (1024 < (bitLen m : ℤ) + e) := by
    rcases Nat.eq_zero_or_pos m with h0 | h0
    · have : bitLen m = 0 := by rw [h0]; simp [bitLen, bitLen.go_zero]
      rw [this]
      push_cast
      omega
    · obtain ⟨hb1, _, hb3⟩ := bitLen_spec m h0
      have hb1q : (2 : ℚ) ^ (bitLen m - 1) ≤ (m : ℚ) := by exact_mod_cast hb1
      have hlow : (2 : ℚ) ^ (((bitLen m - 1 : ℕ) : ℤ) + e) ≤ mag m e := by
        rw [zpow_add₀ (by norm_num), zpow_natCast]
        exact mul_le_mul_of_nonneg_right hb1q (le_of_lt h2e)
      have hup : mag m e < 2 ^ (1024 : ℤ) := by
        have u1 : mag m e ≤ (N : ℚ) / D + 2 ^ e / 2 := by
          have := (abs_le.mp hval).2
          linarith
        have u2 : (2 : ℚ) ^ B ≤ 2 ^ (1023 : ℤ) := zpow_le_zpow_right₀ (by norm_num) hB2
        have u3 : (2 : ℚ) ^ e ≤ 2 ^ (1023 : ℤ) :=
          zpow_le_zpow_right₀ (by norm_num) (by omega)
        have u4 : (2 : ℚ) ^ (1024 : ℤ) = 2 ^ (1023 : ℤ) * 2 := by
          rw [← zpow_add_one₀ (by norm_num)]
          norm_num
        have u5 : (0 : ℚ) < 2 ^ (1023 : ℤ) := zpow_pos (by norm_num) _
        rw [u4]
        linarith
      have := (zpow_lt_zpow_iff_right₀ (by norm_num : (1 : ℚ) < 2)).mp (lt_of_le_of_lt hlow hup)
      omega
  refine ⟨m, e, ?_, heB, hval, ?_⟩
  · have hN0 : N ≠ 0 := by omega
    simp only [roundQ, hN0, if_false, ← he, ← hm, hno]
  · intro z hz
    have hz2 : (N : ℚ) / D / 2 ^ e = z := by
      rw [hz]
      field_simp
    rw [hz2] at herrq
    obtain ⟨c1, c2⟩ := abs_le.mp herrq
    have d1 : (m : ℚ) < z + 1 := by linarith
    have d2 : (z : ℚ) < m + 1 := by linarith
    have d1n : m < z + 1 := by exact_mod_cast d1
    have d2n : z < m + 1 := by exact_mod_cast d2
    have : m = z := by omega
    rw [hz, this, mag]

end Float64

theorem ofNat_exact (a : Nat) (h0 : 0 < a) (h : a < 2 ^ 53) :
    ∃ (m : Nat) (e : ℤ), Float64.ofNat a = Float64.fin false m e ∧ Float64.mag m e = a := by
  have hB : ((a : ℕ) : ℚ) / ((1 : ℕ) : ℚ) < 2 ^ (53 : ℤ) := by
    have h53 : (2 : ℚ) ^ (53 : ℤ) = (2 : ℚ) ^ (53 : ℕ) := by norm_num
    have : (a : ℚ) < 2 ^ (53 : ℕ) := by exact_mod_cast h
    rw [Nat.cast_one, div_one, h53]
    exact this
  obtain ⟨m, e, h1, h2, _, h4⟩ := Float64.roundQ_spec a 1 h0 (by norm_num) 53 hB (by norm_num)
  have he : e ≤ 0 := le_trans h2 (max_le (by norm_num) (by norm_num))
  refine ⟨m, e, h1, ?_⟩
  have hz := h4 (a * 2 ^ (-e).toNat) (by
    have h5 : ((-e).toNat : ℤ) = -e := Int.toNat_of_nonneg (by omega)
    simp only [Nat.cast_mul, Nat.cast_pow, Nat.cast_ofNat, Nat.cast_one, div_one]
    rw [← zpow_natCast, h5, mul_assoc, ← zpow_add₀ (by norm_num)]
    simp)
  simpa using hz

set_option maxRecDepth 100000

theorem Pow10_small (d : Nat) (hd : d ≤ 9) :
    ∃ (m : Nat) (e : ℤ), Pow10 (Int.ofNat d) = Float64.fin false m e ∧ m ≠ 0 ∧
      Float64.mag m e = 10 ^ d := by
  interval_cases d
  · exact ⟨4503599627370496, -52, by decide, by decide, by norm_num [Float64.mag]⟩
  · exact ⟨5629499534213120, -49, by decide, by decide, by norm_num [Float64.mag]⟩
  · exact ⟨7036874417766400, -46, by decide, by decide, by norm_num [Float64.mag]⟩
  · exact ⟨8796093022208000, -43, by decide, by decide, by norm_num [Float64.mag]⟩
  · exact ⟨5497558138880000, -39, by decide, by decide, by norm_num [Float64.mag]⟩
  · exact ⟨6871947673600000, -36, by decide, by decide, by norm_num [Float64.mag]⟩
  · exact ⟨8589934592000000, -33, by decide, by decide, by norm_num [Float64.mag]⟩
  · exact ⟨5368709120000000, -29, by decide, by decide, by norm_num [Float64.mag]⟩
  · exact ⟨6710886400000000, -26, by decide, by decide, by norm_num [Float64.mag]⟩
  · exact ⟨8388608000000000, -23, by decide, by decide, by norm_num [Float64.mag]⟩

theorem Float64.div_fin_spec (mA : Nat) (eA : ℤ) (mP : Nat) (eP : ℤ) (hA : mA ≠ 0)
    (hP : mP ≠ 0) (B : ℤ) (hB : Float64.mag mA eA / Float64.mag mP eP < 2 ^ B)
    (hB2 : B ≤ 1023) :
    ∃ (m : Nat) (e : ℤ),
      (Float64.fin false mA eA).div (Float64.fin false mP eP) = Float64.fin false m e ∧
      e ≤ max (B - 53) (-1074) ∧
      |Float64.mag m e - Float64.mag mA eA / Float64.mag mP eP| ≤ 2 ^ e / 2 ∧
      (∀ z : ℕ, Float64.mag mA eA / Float64.mag mP eP = z * 2 ^ e →
        Float64.mag m e = Float64.mag mA eA / Float64.mag mP eP) := by
  have hq : ((mA * 2 ^ (eA - eP).toNat : ℕ) : ℚ) / ((mP * 2 ^ (eP - eA).toNat : ℕ) : ℚ)
      = Float64.mag mA eA / Float64.mag mP eP := by
    have hs := Float64.two_zpow_split (eA - eP)
    rw [neg_sub] at hs
    have hPq : (mP : ℚ) ≠ 0 := by exact_mod_cast hP
    have h2 : ((2 : ℚ) ^ (eP - eA).toNat) ≠ 0 := by positivity
    have h3 : ((2 : ℚ) ^ eP) ≠ 0 := by positivity
    unfold Float64.mag
    push_cast
    rw [mul_div_mul_comm, hs, zpow_sub₀ (by norm_num), mul_div_mul_comm]
  have hdiv : (Float64.fin false mA eA).div (Float64.fin false mP eP)
      = Float64.roundQ false (mA * 2 ^ (eA - eP).toNat) (mP * 2 ^ (eP - eA).toNat) := by
    simp [Float64.div, hP]
  rw [hdiv, ← hq]
  rw [← hq] at hB
  exact Float64.roundQ_spec _ _ (by positivity) (by positivity) B hB hB2

/-- The float64 computed by `AmountToFloat64`, scaled by `10 ^ 9`, is within one half of the
integer `a * 10 ^ (9 - d)`. -/
theorem AmountToFloat64_close (a d : Nat) (hd : d ≤ 9)
    (ha : a < 2 ^ 23 * 10 ^ d ∨ (d = 0 ∧ a < 2 ^ 53)) :
    ∃ (m : Nat) (e : ℤ), AmountToFloat64 a d = Float64.fin false m e ∧
      |Float64.mag m e * 10 ^ 9 - ((a * 10 ^ (9 - d) : ℕ) : ℚ)| < 1 / 2 := by
  obtain ⟨mP, eP, hP1, hP2, hP3⟩ := Pow10_small d hd
  rcases Nat.eq_zero_or_pos a with h0 | h0
  · subst h0
    refine ⟨0, 0, ?_, ?_⟩
    · have : Float64.ofNat 0 = Float64.fin false 0 0 := by decide
      rw [AmountToFloat64, this, hP1]
      simp [Float64.div, hP2, Float64.roundQ]
    · simp [Float64.mag]
  · have ha53 : a < 2 ^ 53 := by
      rcases ha with h | ⟨_, h⟩
      · have : (10 : ℕ) ^ d ≤ 10 ^ 9 := Nat.pow_le_pow_right (by norm_num) hd
        calc a < 2 ^ 23 * 10 ^ d := h
          _ ≤ 2 ^ 23 * 10 ^ 9 := Nat.mul_le_mul_left _ this
          _ < 2 ^ 53 := by norm_num
      · exact h
    obtain ⟨mA, eA, hA1, hA2⟩ := ofNat_exact a h0 ha53
    have hA0 : mA ≠ 0 := by
      intro h
      rw [h] at hA2
      simp only [Float64.mag, Nat.cast_zero, zero_mul] at hA2
      have : (0 : ℚ) < a := by exact_mod_cast h0
      linarith
    have hPpos : (0 : ℚ) < 10 ^ d := by positivity
    have hscale : ((a * 10 ^ (9 - d) : ℕ) : ℚ) = (a : ℚ) / 10 ^ d * 10 ^ 9 := by
      have : (10 : ℚ) ^ 9 = 10 ^ d * 10 ^ (9 - d) := by
        rw [← pow_add]
        congr 1
        omega
      rw [this]
      push_cast
      field_simp
      ring
    rcases ha with h | ⟨hd0, _⟩
    · have hB : Float64.mag mA eA / Float64.mag mP eP < 2 ^ (23 : ℤ) := by
        rw [hA2, hP3, div_lt_iff₀ hPpos]
        have : (a : ℚ) < 2 ^ (23 : ℕ) * 10 ^ d := by exact_mod_cast h
        have h23 : (2 : ℚ) ^ (23 : ℤ) = (2 : ℚ) ^ (23 : ℕ) := by norm_num
        rw [h23]
        exact this
      obtain ⟨m, e, h1, h2, h3, _⟩ :=
        Float64.div_fin_spec mA eA mP eP hA0 hP2 23 hB (by norm_num)
      refine ⟨m, e, ?_, ?_⟩
      · rw [AmountToFloat64, hA1, hP1, h1]
      · have he : e ≤ -30 := le_trans h2 (max_le (by norm_num) (by norm_num))
        have h2e : (2 : ℚ) ^ e ≤ 2 ^ (-30 : ℤ) := zpow_le_zpow_right₀ (by norm_num) he
        rw [hA2, hP3] at h3
        rw [hscale, ← sub_mul, abs_mul, abs_of_pos (by norm_num : (0 : ℚ) < 10 ^ 9)]
        have h30 : (2 : ℚ) ^ (-30 : ℤ) = 1 / 1073741824 := by norm_num [zpow_neg]
        rw [h30] at h2e
        have : |Float64.mag m e - (a : ℚ) / 10 ^ d| ≤ 1 / 1073741824 / 2 := by linarith
        calc |Float64.mag m e - (a : ℚ) / 10 ^ d| * 10 ^ 9
            ≤ 1 / 1073741824 / 2 * 10 ^ 9 := mul_le_mul_of_nonneg_right this (by norm_num)
          _ < 1 / 2 := by norm_num
    · subst hd0
      have hB : Float64.mag mA eA / Float64.mag mP eP < 2 ^ (53 : ℤ) := by
        rw [hA2, hP3, pow_zero, div_one]
        have : (a : ℚ) < 2 ^ (53 : ℕ) := by exact_mod_cast ha53
        have h53 : (2 : ℚ) ^ (53 : ℤ) = (2 : ℚ) ^ (53 : ℕ) := by norm_num
        rw [h53]
        exact this
      obtain ⟨m, e, h1, h2, _, h4⟩ :=
        Float64.div_fin_spec mA eA mP eP hA0 hP2 53 hB (by norm_num)
      refine ⟨m, e, ?_, ?_⟩
      · rw [AmountToFloat64, hA1, hP1, h1]
      · have he : e ≤ 0 := le_trans h2 (max_le (by norm_num) (by norm_num))
        have hz := h4 (a * 2 ^ (-e).toNat) (by
          have h5 : ((-e).toNat : ℤ) = -e := Int.toNat_of_nonneg (by omega)
          rw [hA2, hP3]
          simp only [Nat.cast_mul, Nat.cast_pow, Nat.cast_ofNat, pow_zero, div_one]
          rw [← zpow_natCast, h5, mul_assoc, ← zpow_add₀ (by norm_num)]
          simp)
        rw [hz, hA2, hP3, hscale]
        simp

/-! ### Decimal rendering -/

theorem digitChar_ne_dot (k : Nat) (hk : k < 10) : Nat.digitChar k ≠ '.' := by
  interval_cases k <;> decide

theorem digitChar_eq_zero_iff (k : Nat) (hk : k < 10) : Nat.digitChar k = '0' ↔ k = 0 := by
  interval_cases k <;> decide

theorem toDigitsCore_no_dot (fuel : Nat) : ∀ (n : Nat) (ds : List Char),
    (∀ x ∈ ds, x ≠ '.') → ∀ x ∈ Nat.toDigitsCore 10 fuel n ds, x ≠ '.' := by
  induction fuel with
  | zero => intro n ds h; simpa [Nat.toDigitsCore] using h
  | succ f ih =>
    intro n ds h
    have hd : ∀ x ∈ Nat.digitChar (n % 10) :: ds, x ≠ '.' := by
      intro x hx
      rcases List.mem_cons.mp hx with hx | hx
      · rw [hx]; exact digitChar_ne_dot _ (Nat.mod_lt _ (by norm_num))
      · exact h x hx
    simp only [Nat.toDigitsCore]
    split
    · exact hd
    · exact ih _ _ hd

theorem repr_no_dot (n : Nat) : ∀ x ∈ (Nat.repr n).toList, x ≠ '.' := by
  have : (Nat.repr n).toList = Nat.toDigits 10 n := rfl
  rw [this]
  exact toDigitsCore_no_dot _ _ _ (by simp)

theorem padDigits_no_dot (k : Nat) : ∀ (n : Nat), ∀ x ∈ padDigits k n, x ≠ '.' := by
  induction k with
  | zero => intro n x hx; simp [padDigits] at hx
  | succ k ih =>
    intro n x hx
    simp only [padDigits, List.mem_append, List.mem_singleton] at hx
    rcases hx with hx | hx
    · exact ih _ x hx
    · rw [hx]; exact digitChar_ne_dot _ (Nat.mod_lt _ (by norm_num))

theorem padDigits_mul_pow (k j : Nat) : ∀ r : Nat,
    padDigits (k + j) (r * 10 ^ j) = padDigits k r ++ List.replicate j '0' := by
  induction j with
  | zero => intro r; simp
  | succ j ih =>
    intro r
    have h1 : r * 10 ^ (j + 1) / 10 = r * 10 ^ j := by
      rw [pow_succ, ← mul_assoc, Nat.mul_div_cancel _ (by norm_num)]
    have h2 : r * 10 ^ (j + 1) % 10 = 0 := by
      rw [pow_succ, ← mul_assoc, Nat.mul_mod_left]
    rw [← Nat.add_assoc, padDigits, h1, h2, ih, List.replicate_succ', List.append_assoc]
    rfl

theorem padDigits_exists_nonzero (k : Nat) : ∀ r : Nat, 0 < r → r < 10 ^ k →
    ∃ x ∈ padDigits k r, x ≠ '0' := by
  induction k with
  | zero => intro r h1 h2; simp at h2; omega
  | succ k ih =>
    intro r h1 h2
    by_cases h : r % 10 = 0
    · have h3 : 0 < r / 10 := by omega
      have h4 : r / 10 < 10 ^ k := by
        rw [pow_succ] at h2
        omega
      obtain ⟨x, hx, hx0⟩ := ih _ h3 h4
      exact ⟨x, by simp [padDigits, hx], hx0⟩
    · refine ⟨Nat.digitChar (r % 10), by simp [padDigits], ?_⟩
      intro hc
      exact h ((digitChar_eq_zero_iff _ (Nat.mod_lt _ (by norm_num))).mp hc)

theorem padDigits_zero (k : Nat) : padDigits k 0 = List.replicate k '0' := by
  have := padDigits_mul_pow 0 k 0
  simpa [padDigits] using this

theorem rdropWhile_append_replicate (p : Char → Bool) (c : Char) (hc : p c = true)
    (l : List Char) (j : Nat) :
    (l ++ List.replicate j c).rdropWhile p = l.rdropWhile p := by
  induction j with
  | zero => simp
  | succ j ih =>
    rw [List.replicate_succ', ← List.append_assoc, List.rdropWhile_concat_pos _ _ _ hc, ih]

theorem rdropWhile_append_cons_neg (p : Char → Bool) (y : Char) (hy : ¬ p y = true)
    (xs : List Char) (F : List Char) :
    (xs ++ y :: F).rdropWhile p = xs ++ y :: F.rdropWhile p := by
  induction F using List.reverseRecOn with
  | nil =>
    rw [List.rdropWhile_nil]
    exact List.rdropWhile_concat_neg _ _ _ hy
  | append_singleton F c ih =>
    have e1 : xs ++ y :: (F ++ [c]) = (xs ++ y :: F) ++ [c] := by simp
    rw [e1, List.rdropWhile_concat, List.rdropWhile_concat, ih]
    split <;> simp

theorem Sprintf9f_close (m : Nat) (e : ℤ) (z : Nat)
    (h : |Float64.mag m e * 10 ^ 9 - (z : ℚ)| < 1 / 2) :
    Sprintf9f (Float64.fin false m e)
      = (Nat.repr (z / 10 ^ 9)).toList ++ ['.'] ++ padDigits 9 (z % 10 ^ 9) := by
  have hn : Float64.roundHalfEven (m * 10 ^ 9 * 2 ^ e.toNat) (2 ^ (-e).toNat) = z := by
    apply Float64.roundHalfEven_eq_of_abs _ _ _ (by positivity)
    have hq : ((m * 10 ^ 9 * 2 ^ e.toNat : ℕ) : ℚ) / ((2 ^ (-e).toNat : ℕ) : ℚ)
        = Float64.mag m e * 10 ^ 9 := by
      unfold Float64.mag
      rw [← Float64.two_zpow_split e]
      push_cast
      ring
    rw [hq, abs_sub_comm]
    exact h
  simp only [Sprintf9f]
  rw [hn]
  simp

/-- Trimming of the rendering with 9 fractional digits of the integer `a * 10 ^ (9 - d)`. -/
theorem trim_fixed9 (a d : Nat) (hd : d ≤ 9) :
    TrimRight (TrimRightZeros ((Nat.repr (a * 10 ^ (9 - d) / 10 ^ 9)).toList ++ ['.']
        ++ padDigits 9 (a * 10 ^ (9 - d) % 10 ^ 9))) '.'
      = (Nat.repr (a / 10 ^ d)).toList ++
        (if a % 10 ^ d = 0 then []
          else '.' :: (padDigits d (a % 10 ^ d)).rdropWhile (fun x => x == '0')) := by
  have hpow : (10 : ℕ) ^ 9 = 10 ^ d * 10 ^ (9 - d) := by
    rw [← pow_add]
    congr 1
    omega
  have hk : 0 < (10 : ℕ) ^ (9 - d) := by positivity
  have hz1 : a * 10 ^ (9 - d) / 10 ^ 9 = a / 10 ^ d := by
    rw [hpow, Nat.mul_div_mul_right _ _ hk]
  have hz2 : a * 10 ^ (9 - d) % 10 ^ 9 = a % 10 ^ d * 10 ^ (9 - d) := by
    rw [hpow, Nat.mul_mod_mul_right]
  have h9 : padDigits 9 (a % 10 ^ d * 10 ^ (9 - d))
      = padDigits d (a % 10 ^ d) ++ List.replicate (9 - d) '0' := by
    have := padDigits_mul_pow d (9 - d) (a % 10 ^ d)
    have e9 : d + (9 - d) = 9 := by omega
    rw [e9] at this
    exact this
  rw [hz1, hz2, h9]
  have hI := repr_no_dot (a / 10 ^ d)
  generalize (Nat.repr (a / 10 ^ d)).toList = I at hI
  have hzero : TrimRightZeros (I ++ ['.'] ++ (padDigits d (a % 10 ^ d)
        ++ List.replicate (9 - d) '0'))
      = I ++ '.' :: (padDigits d (a % 10 ^ d)).rdropWhile (fun x => x == '0') := by
    unfold TrimRightZeros TrimRight
    rw [← List.append_assoc, rdropWhile_append_replicate _ '0' (by decide),
      List.append_assoc, List.singleton_append,
      rdropWhile_append_cons_neg _ '.' (by decide)]
  rw [hzero]
  unfold TrimRight
  by_cases hr : a % 10 ^ d = 0
  · rw [hr, padDigits_zero]
    have h0 : (List.replicate d '0').rdropWhile (fun x => x == '0') = [] := by
      rw [List.rdropWhile_eq_nil_iff]
      intro x hx
      rw [List.eq_of_mem_replicate hx]
      decide
    rw [h0]
    simp only [if_true]
    have e1 : I ++ ['.'] = I ++ ['.'] := rfl
    rw [List.rdropWhile_concat_pos _ _ _ (by decide), List.append_nil,
      List.rdropWhile_eq_self_iff]
    intro hl hp
    have := hI _ (List.getLast_mem hl)
    simp at hp
    exact this hp
  · simp only [hr, if_false]
    rw [List.rdropWhile_eq_self_iff]
    intro hl hp
    have hrpos : 0 < a % 10 ^ d := Nat.pos_of_ne_zero hr
    have hrlt : a % 10 ^ d < 10 ^ d := Nat.mod_lt _ (by positivity)
    have hF : (padDigits d (a % 10 ^ d)).rdropWhile (fun x => x == '0') ≠ [] := by
      intro hnil
      rw [List.rdropWhile_eq_nil_iff] at hnil
      obtain ⟨x, hx, hx0⟩ := padDigits_exists_nonzero d _ hrpos hrlt
      have := hnil x hx
      simp at this
      exact hx0 this
    have hlast : (I ++ '.' :: (padDigits d (a % 10 ^ d)).rdropWhile (fun x => x == '0')).getLast hl
        = ((padDigits d (a % 10 ^ d)).rdropWhile (fun x => x == '0')).getLast hF := by
      rw [List.getLast_append_of_ne_nil (List.cons_ne_nil _ _), List.getLast_cons hF]
    rw [hlast] at hp
    have hmem : ((padDigits d (a % 10 ^ d)).rdropWhile (fun x => x == '0')).getLast hF
        ∈ padDigits d (a % 10 ^ d) :=
      (List.rdropWhile_prefix (fun x => x == '0') _).subset (List.getLast_mem hF)
    have := padDigits_no_dot d _ _ hmem
    simp at hp
    exact this hp

theorem AmountToString_eq_canonical (a d : Nat) (hd : d ≤ 9)
    (ha : a < 2 ^ 23 * 10 ^ d ∨ (d = 0 ∧ a < 2 ^ 53)) :
    AmountToString a d = canonicalDecimal a d := by
  obtain ⟨m, e, h1, h2⟩ := AmountToFloat64_close a d hd ha
  unfold AmountToString Float64ToString canonicalDecimal
  rw [h1, Sprintf9f_close m e _ h2, trim_fixed9 a d hd]

theorem padDigits_trim_ne_nil (d r : Nat) (h1 : 0 < r) (h2 : r < 10 ^ d) :
    (padDigits d r).rdropWhile (fun x => x == '0') ≠ [] := by
  intro hnil
  rw [List.rdropWhile_eq_nil_iff] at hnil
  obtain ⟨x, hx, hx0⟩ := padDigits_exists_nonzero d r h1 h2
  have := hnil x hx
  simp at this
  exact hx0 this

/-- Shape of the canonical rendering: it does not end in `.`, it does not end in `0` when it
contains a `.`, and it starts with the decimal digits of the integer part. -/
theorem canonicalDecimal_shape (a d : Nat) :
    (canonicalDecimal a d).toList.getLast? ≠ some '.' ∧
    ('.' ∈ (canonicalDecimal a d).toList →
      (canonicalDecimal a d).toList.getLast? ≠ some '0') ∧
    (Nat.repr (a / 10 ^ d)).toList <+: (canonicalDecimal a d).toList := by
  have hL : (canonicalDecimal a d).toList = (Nat.repr (a / 10 ^ d)).toList ++
      (if a % 10 ^ d = 0 then []
        else '.' :: (padDigits d (a % 10 ^ d)).rdropWhile (fun x => x == '0')) := rfl
  rw [hL]
  have hI := repr_no_dot (a / 10 ^ d)
  generalize (Nat.repr (a / 10 ^ d)).toList = I at hI
  refine ⟨?_, ?_, List.prefix_append _ _⟩
  · by_cases hr : a % 10 ^ d = 0
    · simp only [hr, if_true, List.append_nil]
      intro h
      exact hI _ (List.mem_of_getLast?_eq_some h) rfl
    · simp only [hr, if_false]
      have hF := padDigits_trim_ne_nil d _ (Nat.pos_of_ne_zero hr) (Nat.mod_lt _ (by positivity))
      rw [List.getLast?_append, List.getLast?_cons, List.getLast?_eq_getLast _ hF]
      simp only [Option.getD_some, Option.or, ne_eq, Option.some.injEq]
      have hmem := (List.rdropWhile_prefix (fun x => x == '0') _).subset (List.getLast_mem hF)
      exact padDigits_no_dot d _ _ hmem
  · by_cases hr : a % 10 ^ d = 0
    · simp only [hr, if_true, List.append_nil]
      intro h
      exact absurd rfl (hI _ h)
    · simp only [hr, if_false]
      intro _
      have hF := padDigits_trim_ne_nil d _ (Nat.pos_of_ne_zero hr) (Nat.mod_lt _ (by positivity))
      rw [List.getLast?_append, List.getLast?_cons, List.getLast?_eq_getLast _ hF]
      simp only [Option.getD_some, Option.or, ne_eq, Option.some.injEq]
      have := List.rdropWhile_last_not (fun x => x == '0') _ hF
      simpa using this

/-- The four cases of `TestAmountToString`. -/
theorem AmountToString_tests :
    AmountToString 1 0 = "1" ∧ AmountToString 100000 3 = "100" ∧
    AmountToString 1000000000000 9 = "1000" ∧
    AmountToString 99999999999999 9 = "99999.999999999" := by
  refine ⟨by decide, by decide, by decide, by decide⟩

/-- Counterexample to C10 as stated: the amount `167772161 < 2^53` with one decimal is
rendered as `16777216.100000001`, while the canonical rendering of `167772161 / 10` is
`16777216.1`. -/
theorem AmountToString_not_canonical :
    167772161 < 2 ^ 53 ∧ 1 ≤ 9 ∧
    AmountToString 167772161 1 = "16777216.100000001" ∧
    canonicalDecimal 167772161 1 = "16777216.1" ∧
    AmountToString 167772161 1 ≠ canonicalDecimal 167772161 1 := by
  refine ⟨by decide, by decide, by decide, by decide, by decide⟩

/-- C10 (amended): for decimals `d ≤ 9` and a base-unit amount `a < 2^23 * 10^d` (or
`a < 2^53` when `d = 0`), `AmountToString a d` is the canonical decimal rendering of
`a / 10^d`: the decimal digits of `a div 10^d`, followed, only when `a mod 10^d` is non-zero,
by `.` and the `d`-digit zero-padded value of `a mod 10^d` with its trailing zeros removed.
The result does not end in `.`, does not end in `0` when it contains a `.`, and starts with
the digits of the integer part. -/
theorem AmountToString_canonical (a d : Nat) (hd : d ≤ 9)
    (ha : a < 2 ^ 23 * 10 ^ d ∨ (d = 0 ∧ a < 2 ^ 53)) :
    AmountToString a d = canonicalDecimal a d ∧
    (AmountToString a d).toList.getLast? ≠ some '.' ∧
    ('.' ∈ (AmountToString a d).toList → (AmountToString a d).toList.getLast? ≠ some '0') ∧
    (Nat.repr (a / 10 ^ d)).toList <+: (AmountToString a d).toList := by
  rw [AmountToString_eq_canonical a d hd ha]
  exact ⟨rfl, canonicalDecimal_shape a d⟩

/-- Witness of C10 (amended): the amount `99999999999999` with 9 decimals. -/
theorem AmountToString_canonical_witness :
    AmountToString 99999999999999 9 = canonicalDecimal 99999999999999 9 ∧
    (AmountToString 99999999999999 9).toList.getLast? ≠ some '.' ∧
    ('.' ∈ (AmountToString 99999999999999 9).toList →
      (AmountToString 99999999999999 9).toList.getLast? ≠ some '0') ∧
    (Nat.repr (99999999999999 / 10 ^ 9)).toList <+:
      (AmountToString 99999999999999 9).toList :=
  AmountToString_canonical 99999999999999 9 (by decide) (Or.inl (by decide))

/-! ## Amount codec: round trip through float64 -/

theorem Pow10_exact12 (d : Nat) (hd : d ≤ 12) :
    ∃ (m : Nat) (e : ℤ), Pow10 (Int.ofNat d) = Float64.fin false m e ∧ m ≠ 0 ∧
      Float64.mag m e = 10 ^ d := by
  interval_cases d
  · exact ⟨4503599627370496, -52, by decide, by decide, by norm_num [Float64.mag]⟩
  · exact ⟨5629499534213120, -49, by decide, by decide, by norm_num [Float64.mag]⟩
  · exact ⟨7036874417766400, -46, by decide, by decide, by norm_num [Float64.mag]⟩
  · exact ⟨8796093022208000, -43, by decide, by decide, by norm_num [Float64.mag]⟩
  · exact ⟨5497558138880000, -39, by decide, by decide, by norm_num [Float64.mag]⟩
  · exact ⟨6871947673600000, -36, by decide, by decide, by norm_num [Float64.mag]⟩
  · exact ⟨8589934592000000, -33, by decide, by decide, by norm_num [Float64.mag]⟩
  · exact ⟨5368709120000000, -29, by decide, by decide, by norm_num [Float64.mag]⟩
  · exact ⟨6710886400000000, -26, by decide, by decide, by norm_num [Float64.mag]⟩
  · exact ⟨8388608000000000, -23, by decide, by decide, by norm_num [Float64.mag]⟩
  · exact ⟨5242880000000000, -19, by decide, by decide, by norm_num [Float64.mag]⟩
  · exact ⟨6553600000000000, -16, by decide, by decide, by norm_num [Float64.mag]⟩
  · exact ⟨8192000000000000, -13, by decide, by decide, by norm_num [Float64.mag]⟩

theorem Float64.mul_fin_spec (m1 : Nat) (e1 : ℤ) (m2 : Nat) (e2 : ℤ) (h1 : m1 ≠ 0)
    (h2 : m2 ≠ 0) (B : ℤ) (hB : Float64.mag m1 e1 * Float64.mag m2 e2 < 2 ^ B)
    (hB2 : B ≤ 1023) :
    ∃ (m : Nat) (e : ℤ),
      (Float64.fin false m1 e1).mul (Float64.fin false m2 e2) = Float64.fin false m e ∧
      e ≤ max (B - 53) (-1074) ∧
      |Float64.mag m e - Float64.mag m1 e1 * Float64.mag m2 e2| ≤ 2 ^ e / 2 ∧
      (∀ z : ℕ, Float64.mag m1 e1 * Float64.mag m2 e2 = z * 2 ^ e →
        Float64.mag m e = Float64.mag m1 e1 * Float64.mag m2 e2) := by
  have hq : ((m1 * m2 * 2 ^ (e1 + e2).toNat : ℕ) : ℚ) / ((2 ^ (-(e1 + e2)).toNat : ℕ) : ℚ)
      = Float64.mag m1 e1 * Float64.mag m2 e2 := by
    have hs := Float64.two_zpow_split (e1 + e2)
    unfold Float64.mag
    push_cast
    rw [mul_div_assoc, hs, zpow_add₀ (by norm_num)]
    ring
  have hmul : (Float64.fin false m1 e1).mul (Float64.fin false m2 e2)
      = Float64.roundQ false (m1 * m2 * 2 ^ (e1 + e2).toNat) (2 ^ (-(e1 + e2)).toNat) := by
    simp [Float64.mul]
  rw [hmul, ← hq]
  rw [← hq] at hB
  have hpos : 0 < m1 * m2 * 2 ^ (e1 + e2).toNat := by
    have := Nat.pos_of_ne_zero h1
    have := Nat.pos_of_ne_zero h2
    positivity
  exact Float64.roundQ_spec _ _ hpos (by positivity) B hB hB2

/-- A float64 within half a unit in the last place of `v` is not below a multiple of the unit
that is at most `v`. -/
theorem Float64.mag_ge_of_grid (m : Nat) (e : ℤ) (z : Nat) (v : ℚ)
    (h : |Float64.mag m e - v| ≤ 2 ^ e / 2) (hz : (z : ℚ) * 2 ^ e ≤ v) :
    (z : ℚ) * 2 ^ e ≤ Float64.mag m e := by
  have h2e : (0 : ℚ) < 2 ^ e := zpow_pos (by norm_num) e
  unfold Float64.mag at h ⊢
  by_contra hlt
  push_neg at hlt
  have hmz : (m : ℚ) < z := lt_of_mul_lt_mul_right hlt (le_of_lt h2e)
  have hmz' : m + 1 ≤ z := by exact_mod_cast hmz
  have hq : ((m : ℚ) + 1) ≤ z := by exact_mod_cast hmz'
  have := mul_le_mul_of_nonneg_right hq (le_of_lt h2e)
  have h1 := (abs_le.mp h).1
  nlinarith

/-- A float64 within half a unit in the last place of `v` is not above a multiple of the unit
that is at least `v`. -/
theorem Float64.mag_le_of_grid (m : Nat) (e : ℤ) (z : Nat) (v : ℚ)
    (h : |Float64.mag m e - v| ≤ 2 ^ e / 2) (hz : v ≤ (z : ℚ) * 2 ^ e) :
    Float64.mag m e ≤ (z : ℚ) * 2 ^ e := by
  have h2e : (0 : ℚ) < 2 ^ e := zpow_pos (by norm_num) e
  unfold Float64.mag at h ⊢
  by_contra hlt
  push_neg at hlt
  have hmz : (z : ℚ) < m := lt_of_mul_lt_mul_right hlt (le_of_lt h2e)
  have hmz' : z + 1 ≤ m := by exact_mod_cast hmz
  have hq : ((z : ℚ) + 1) ≤ m := by exact_mod_cast hmz'
  have := mul_le_mul_of_nonneg_right hq (le_of_lt h2e)
  have h1 := (abs_le.mp h).2
  nlinarith

/-- A natural number is a multiple of `2 ^ e` for `e ≤ 0`. -/
theorem Float64.nat_on_grid (n : Nat) (e : ℤ) (he : e ≤ 0) :
    ((n * 2 ^ (-e).toNat : ℕ) : ℚ) * 2 ^ e = n := by
  have h5 : ((-e).toNat : ℤ) = -e := Int.toNat_of_nonneg (by omega)
  push_cast
  rw [← zpow_natCast, h5, mul_assoc, ← zpow_add₀ (by norm_num)]
  simp

/-- Truncation of a float64 lying between two naturals. -/
theorem Float64.toUint64_between (m : Nat) (e : ℤ) (he : e ≤ 0) (lo hi : Nat)
    (h1 : (lo : ℚ) ≤ Float64.mag m e) (h2 : Float64.mag m e ≤ hi) (hhi : hi < 2 ^ 64) :
    ∃ r : Nat, Float64.toUint64 (Float64.fin false m e) = some r ∧ lo ≤ r ∧ r ≤ hi := by
  have h5 : ((-e).toNat : ℤ) = -e := Int.toNat_of_nonneg (by omega)
  have h0 : e.toNat = 0 := by omega
  have hqpos : (0 : ℚ) < 2 ^ (-e).toNat := by positivity
  have hmag : Float64.mag m e = (m : ℚ) / 2 ^ (-e).toNat := by
    unfold Float64.mag
    rw [← zpow_natCast, h5, zpow_neg, div_eq_mul_inv, inv_inv]
  rw [hmag] at h1 h2
  rw [le_div_iff₀ hqpos] at h1
  rw [div_le_iff₀ hqpos] at h2
  have h1n : lo * 2 ^ (-e).toNat ≤ m := by exact_mod_cast h1
  have h2n : m ≤ hi * 2 ^ (-e).toNat := by exact_mod_cast h2
  have hqn : 0 < 2 ^ (-e).toNat := by positivity
  have hlo : lo ≤ m / 2 ^ (-e).toNat := (Nat.le_div_iff_mul_le hqn).mpr h1n
  have hhi2 : m / 2 ^ (-e).toNat ≤ hi := Nat.div_le_of_le_mul (by rw [Nat.mul_comm]; exact h2n)
  refine ⟨m / 2 ^ (-e).toNat, ?_, hlo, hhi2⟩
  simp only [Float64.toUint64, h0, pow_zero, Nat.mul_one]
  by_cases ht : m / 2 ^ (-e).toNat = 0
  · simp [ht]
  · have : m / 2 ^ (-e).toNat < 2 ^ 64 := lt_of_le_of_lt hhi2 hhi
    rw [if_neg ht]
    simp only [Bool.false_eq_true, if_false]
    rw [if_pos this]

/-- The float64 computed by `AmountToFloat64` for `d ≤ 12` has relative error at most
`2 ^ (-53)`, and is exact for `d = 0`. -/
theorem AmountToFloat64_rel (a d : Nat) (hd : d ≤ 12) (h0 : 0 < a) (ha : a < 2 ^ 53) :
    ∃ (m : Nat) (e : ℤ), AmountToFloat64 a d = Float64.fin false m e ∧ m ≠ 0 ∧
      |Float64.mag m e - (a : ℚ) / 10 ^ d| ≤ (a : ℚ) / 10 ^ d / 2 ^ 53 ∧
      (d = 0 → Float64.mag m e = a) := by
  obtain ⟨mP, eP, hP1, hP2, hP3⟩ := Pow10_exact12 d hd
  obtain ⟨mA, eA, hA1, hA2⟩ := ofNat_exact a h0 ha
  have haq : (1 : ℚ) ≤ a := by exact_mod_cast h0
  have haq53 : (a : ℚ) < 2 ^ (53 : ℕ) := by exact_mod_cast ha
  have hA0 : mA ≠ 0 := by
    intro h
    rw [h] at hA2
    simp only [Float64.mag, Nat.cast_zero, zero_mul] at hA2
    linarith
  have hP1le : (1 : ℚ) ≤ 10 ^ d := one_le_pow₀ (by norm_num)
  have hPle : (10 : ℚ) ^ d ≤ 10 ^ 12 := pow_le_pow_right₀ (by norm_num) hd
  have hPpos : (0 : ℚ) < 10 ^ d := by positivity
  have hv0 : (0 : ℚ) < (a : ℚ) / 10 ^ d := by positivity
  have hv53 : (a : ℚ) / 10 ^ d < 2 ^ (53 : ℤ) := by
    have h53 : (2 : ℚ) ^ (53 : ℤ) = (2 : ℚ) ^ (53 : ℕ) := by norm_num
    rw [h53, div_lt_iff₀ hPpos]
    nlinarith
  have hvlo : (2 : ℚ) ^ (-40 : ℤ) ≤ (a : ℚ) / 10 ^ d := by
    have h40 : (2 : ℚ) ^ (-40 : ℤ) = 1 / 1099511627776 := by norm_num [zpow_neg]
    rw [h40, le_div_iff₀ hPpos]
    nlinarith
  have hk1 : (2 : ℚ) ^ Int.log 2 ((a : ℚ) / 10 ^ d) ≤ (a : ℚ) / 10 ^ d := by
    have := Int.zpow_log_le_self (by norm_num : 1 < 2) hv0
    simpa using this
  have hk2 : (a : ℚ) / 10 ^ d < (2 : ℚ) ^ (Int.log 2 ((a : ℚ) / 10 ^ d) + 1) := by
    have := Int.lt_zpow_succ_log_self (by norm_num : 1 < 2) ((a : ℚ) / 10 ^ d)
    simpa using this
  generalize Int.log 2 ((a : ℚ) / 10 ^ d) = k at hk1 hk2
  have hk53 : k < 53 :=
    (zpow_lt_zpow_iff_right₀ (by norm_num : (1 : ℚ) < 2)).mp (lt_of_le_of_lt hk1 hv53)
  have hk40 : -40 < k + 1 :=
    (zpow_lt_zpow_iff_right₀ (by norm_num : (1 : ℚ) < 2)).mp (lt_of_le_of_lt hvlo hk2)
  have hB : Float64.mag mA eA / Float64.mag mP eP < 2 ^ (k + 1) := by
    rw [hA2, hP3]
    exact hk2
  obtain ⟨m, e, h1, h2, h3, h4⟩ :=
    Float64.div_fin_spec mA eA mP eP hA0 hP2 (k + 1) hB (by omega)
  rw [hA2, hP3] at h3 h4
  have he : e ≤ k - 52 := le_trans h2 (max_le (by omega) (by omega))
  have h2e : (2 : ℚ) ^ e ≤ 2 ^ (k - 52) := zpow_le_zpow_right₀ (by norm_num) he
  have hsplit : (2 : ℚ) ^ (k - 52) = 2 ^ k / 2 ^ 52 := by
    rw [zpow_sub₀ (by norm_num)]
    norm_num
  have herr : |Float64.mag m e - (a : ℚ) / 10 ^ d| ≤ (a : ℚ) / 10 ^ d / 2 ^ 53 := by
    calc |Float64.mag m e - (a : ℚ) / 10 ^ d| ≤ 2 ^ e / 2 := h3
      _ ≤ 2 ^ k / 2 ^ 52 / 2 := by rw [← hsplit]; linarith
      _ = 2 ^ k / 2 ^ 53 := by ring
      _ ≤ (a : ℚ) / 10 ^ d / 2 ^ 53 := by
        apply div_le_div_of_nonneg_right hk1 (by positivity)
  refine ⟨m, e, ?_, ?_, herr, ?_⟩
  · rw [AmountToFloat64, hA1, hP1, h1]
  · intro hm
    rw [hm] at herr
    simp only [Float64.mag, Nat.cast_zero, zero_mul, zero_sub, abs_neg] at herr
    rw [abs_of_pos hv0] at herr
    have : (a : ℚ) / 10 ^ d / 2 ^ 53 < (a : ℚ) / 10 ^ d := by
      apply div_lt_self hv0
      norm_num
    linarith
  · intro hd0
    subst hd0
    have he0 : e ≤ 0 := by omega
    have hz := h4 (a * 2 ^ (-e).toNat) (by
      rw [Float64.nat_on_grid a e he0]
      simp)
    rw [hz]
    simp

/-- The four cases of `TestAmountToUint64` composed with `AmountToFloat64`: they round-trip
exactly. -/
theorem AmountToUint64_tests :
    AmountToUint64 (AmountToFloat64 1 0) 0 = some 1 ∧
    AmountToUint64 (AmountToFloat64 100000 3) 3 = some 100000 ∧
    AmountToUint64 (AmountToFloat64 1000000000000 9) 9 = some 1000000000000 ∧
    AmountToUint64 (AmountToFloat64 99999999999999 9) 9 = some 99999999999999 := by
  refine ⟨by decide, by decide, by decide, by decide⟩

/-- Counterexample to C11 as stated: the amount `29` with two decimals comes back as `28`
(the float64 product `0.29 * 100` lies just below `29` and is truncated), and the amount
`8909869259072037 < 2^53` with one decimal comes back as `8909869259072038`. -/
theorem AmountToUint64_roundtrip_fails :
    29 < 2 ^ 53 ∧ 2 ≤ 12 ∧
    AmountToUint64 (AmountToFloat64 29 2) 2 = some 28 ∧
    AmountToUint64 (AmountToFloat64 29 2) 2 ≠ some 29 ∧
    8909869259072037 < 2 ^ 53 ∧
    AmountToUint64 (AmountToFloat64 8909869259072037 1) 1 = some 8909869259072038 := by
  refine ⟨by decide, by decide, by decide, by decide, by decide, by decide⟩

/-- C11 (amended): for every base-unit amount `a < 2^53` and decimals `d ≤ 12`, the
conversion `AmountToUint64 (AmountToFloat64 a d) d` is defined and its result differs from
`a` by at most one (it is `a - 1`, `a` or `a + 1`); for `d = 0` it is `a`. -/
theorem AmountToUint64_roundtrip_near (a d : Nat) (hd : d ≤ 12) (ha : a < 2 ^ 53) :
    ∃ r : Nat, AmountToUint64 (AmountToFloat64 a d) d = some r ∧ a ≤ r + 1 ∧ r ≤ a + 1 ∧
      (d = 0 → r = a) := by
  obtain ⟨mP, eP, hP1, hP2, hP3⟩ := Pow10_exact12 d hd
  rcases Nat.eq_zero_or_pos a with h0 | h0
  · subst h0
    refine ⟨0, ?_, by omega, by omega, fun _ => rfl⟩
    obtain ⟨mQ, eQ, hQ1, hQ2, _⟩ := Pow10_exact12 d hd
    have hof : Float64.ofNat 0 = Float64.fin false 0 0 := by decide
    have hx : AmountToFloat64 0 d = Float64.fin false 0 0 := by
      rw [AmountToFloat64, hof, hQ1]
      simp [Float64.div, hQ2, Float64.roundQ]
    rw [AmountToUint64, hx, hQ1]
    simp [Float64.mul, Float64.roundQ, Float64.toUint64]
  · obtain ⟨m1, e1, hx, hm1, herr, hex⟩ := AmountToFloat64_rel a d hd h0 ha
    have haq : (1 : ℚ) ≤ a := by exact_mod_cast h0
    have haq53 : (a : ℚ) + 1 ≤ 2 ^ (53 : ℕ) := by exact_mod_cast ha
    have hPpos : (0 : ℚ) < 10 ^ d := by positivity
    -- the exact product
    have hw : |Float64.mag m1 e1 * Float64.mag mP eP - (a : ℚ)| ≤ (a : ℚ) / 2 ^ 53 := by
      have e1' : Float64.mag m1 e1 * Float64.mag mP eP - (a : ℚ)
          = (Float64.mag m1 e1 - (a : ℚ) / 10 ^ d) * 10 ^ d := by
        rw [hP3]
        field_simp
      rw [e1', abs_mul, abs_of_pos hPpos]
      calc |Float64.mag m1 e1 - (a : ℚ) / 10 ^ d| * 10 ^ d
          ≤ (a : ℚ) / 10 ^ d / 2 ^ 53 * 10 ^ d :=
            mul_le_mul_of_nonneg_right herr (le_of_lt hPpos)
        _ = (a : ℚ) / 2 ^ 53 := by
          field_simp
          ring
    have hsmall : (a : ℚ) / 2 ^ 53 < 1 := by
      rw [div_lt_one (by positivity)]
      linarith
    obtain ⟨hw1, hw2⟩ := abs_le.mp hw
    have hB : Float64.mag m1 e1 * Float64.mag mP eP < 2 ^ (53 : ℤ) := by
      have h53 : (2 : ℚ) ^ (53 : ℤ) = (2 : ℚ) ^ (53 : ℕ) := by norm_num
      rw [h53]
      linarith
    obtain ⟨m2, e2, hy, he2, hyerr, hyex⟩ :=
      Float64.mul_fin_spec m1 e1 mP eP hm1 hP2 53 hB (by norm_num)
    have he0 : e2 ≤ 0 := le_trans he2 (max_le (by norm_num) (by norm_num))
    by_cases hd0 : d = 0
    · have hxa := hex hd0
      have hP1' : Float64.mag mP eP = 1 := by rw [hP3, hd0, pow_zero]
      have hwa : Float64.mag m1 e1 * Float64.mag mP eP = a := by rw [hxa, hP1', mul_one]
      have hya : Float64.mag m2 e2 = a := by
        have := hyex (a * 2 ^ (-e2).toNat) (by rw [Float64.nat_on_grid a e2 he0, hwa])
        rw [this, hwa]
      obtain ⟨r, hr1, hr2, hr3⟩ := Float64.toUint64_between m2 e2 he0 a a
        (le_of_eq hya.symm) (le_of_eq hya) (by omega)
      refine ⟨r, ?_, by omega, by omega, fun _ => by omega⟩
      rw [AmountToUint64, hx, hP1, hy, hr1]
    · have hlo : ((a - 1 : ℕ) : ℚ) ≤ Float64.mag m2 e2 := by
        have hz : ((a - 1 : ℕ) : ℚ) = (a : ℚ) - 1 := by
          rw [Nat.cast_sub h0]
          simp
        have := Float64.mag_ge_of_grid m2 e2 ((a - 1) * 2 ^ (-e2).toNat) _ hyerr
          (by rw [Float64.nat_on_grid (a - 1) e2 he0, hz]; linarith)
        rw [Float64.nat_on_grid (a - 1) e2 he0] at this
        exact this
      have hhi : Float64.mag m2 e2 ≤ ((a + 1 : ℕ) : ℚ) := by
        have hz : ((a + 1 : ℕ) : ℚ) = (a : ℚ) + 1 := by push_cast; ring
        have := Float64.mag_le_of_grid m2 e2 ((a + 1) * 2 ^ (-e2).toNat) _ hyerr
          (by rw [Float64.nat_on_grid (a + 1) e2 he0, hz]; linarith)
        rw [Float64.nat_on_grid (a + 1) e2 he0] at this
        exact this
      obtain ⟨r, hr1, hr2, hr3⟩ := Float64.toUint64_between m2 e2 he0 (a - 1) (a + 1)
        hlo hhi (by omega)
      refine ⟨r, ?_, by omega, by omega, fun h => absurd h hd0⟩
      rw [AmountToUint64, hx, hP1, hy, hr1]

/-- Witness of C11 (amended): the amount `99999999999999` with 9 decimals. -/
theorem AmountToUint64_roundtrip_near_witness :
    ∃ r : Nat, AmountToUint64 (AmountToFloat64 99999999999999 9) 9 = some r ∧
      99999999999999 ≤ r + 1 ∧ r ≤ 99999999999999 + 1 ∧ (9 = 0 → r = 99999999999999) :=
  AmountToUint64_roundtrip_near 99999999999999 9 (by decide) (by decide)

/-! ## Composite operations: swap mode, legacy flag and the `ErrNoRoute` branch -/

/-- The only request of `ExchangeRate` is its quote. -/
theorem Client.ExchangeRate_log (env : Env) (c : Client) (p : ExchangeRateParams)
    (log : List Call) :
    (Client.ExchangeRate env c p log).2 =
      log ++ [quoteCall c
        { InputMint := p.InputMint
          OutputMint := p.OutputMint
          Amount := p.Amount
          SwapMode := p.SwapMode
          SlippageBps := 0
          FeeBps := 0
          OnlyDirectRoutes := false
          AsLegacyTransaction := false
          UserPublicKey := "" }] := by
  have hlog := Client.Quote_log env c
    { InputMint := p.InputMint
      OutputMint := p.OutputMint
      Amount := p.Amount
      SwapMode := p.SwapMode
      SlippageBps := 0
      FeeBps := 0
      OnlyDirectRoutes := false
      AsLegacyTransaction := false
      UserPublicKey := "" } log
  unfold Client.ExchangeRate
  simp only
  rcases hq : Client.Quote env c
    { InputMint := p.InputMint
      OutputMint := p.OutputMint
      Amount := p.Amount
      SwapMode := p.SwapMode
      SlippageBps := 0
      FeeBps := 0
      OnlyDirectRoutes := false
      AsLegacyTransaction := false
      UserPublicKey := "" } log with ⟨⟨routes, e⟩, log1⟩
  rw [hq] at hlog
  simp only at hlog
  subst hlog
  cases e with
  | some err => rfl
  | none =>
    simp only
    rcases hg : GetBestRoute routes with ⟨route, ge⟩
    cases ge <;> rfl

/-- C12 (evaluation of the code at the failing input): `ExchangeRate` passes the swap mode
of its parameters to the quote unchanged.  With the swap mode unset, the quote is requested
with the empty swap mode, not with `ExactOut`. -/
theorem ExchangeRate_swap_mode_not_defaulted (env : Env) (c : Client)
    (p : ExchangeRateParams) (log : List Call) :
    (Client.ExchangeRate env c p log).2 =
      log ++ [quoteCall c
        { InputMint := p.InputMint
          OutputMint := p.OutputMint
          Amount := p.Amount
          SwapMode := p.SwapMode
          SlippageBps := 0
          FeeBps := 0
          OnlyDirectRoutes := false
          AsLegacyTransaction := false
          UserPublicKey := "" }] ∧
    (Client.ExchangeRate (constEnv 200 "" [routeAmounts "1" "100000"]) NewClient
        { InputMint := "So11111111111111111111111111111111111111112"
          OutputMint := "EPjFWdd5AufqSSqeM2qN1xzybapC8G4wEGGkZwyTDt1v"
          Amount := 100000
          SwapMode := "" } []).2 =
      [quoteCall NewClient
        { InputMint := "So11111111111111111111111111111111111111112"
          OutputMint := "EPjFWdd5AufqSSqeM2qN1xzybapC8G4wEGGkZwyTDt1v"
          Amount := 100000
          SwapMode := ""
          SlippageBps := 0
          FeeBps := 0
          OnlyDirectRoutes := false
          AsLegacyTransaction := false
          UserPublicKey := "" }] ∧
    ("" : String) ≠ SwapModeExactOut :=
  ⟨Client.ExchangeRate_log env c p log, by decide, by decide⟩

/-- The requests of `BestSwap`: its quote, never asking for legacy-only routes, and, when a
swap is sent, a swap asking for a legacy transaction. -/
theorem Client.BestSwap_log_cases (env : Env) (c : Client) (p : BestSwapParams)
    (log : List Call) :
    (Client.BestSwap env c p log).2 =
      log ++ [quoteCall c
        { InputMint := p.InputMint
          OutputMint := p.OutputMint
          Amount := p.Amount
          SwapMode := if p.SwapMode = "" then SwapModeExactIn else p.SwapMode
          SlippageBps := 0
          FeeBps := p.FeeAmount
          OnlyDirectRoutes := false
          AsLegacyTransaction := false
          UserPublicKey := "" }] ∨
    ∃ route : Route, (Client.BestSwap env c p log).2 =
      log ++ [quoteCall c
        { InputMint := p.InputMint
          OutputMint := p.OutputMint
          Amount := p.Amount
          SwapMode := if p.SwapMode = "" then SwapModeExactIn else p.SwapMode
          SlippageBps := 0
          FeeBps := p.FeeAmount
          OnlyDirectRoutes := false
          AsLegacyTransaction := false
          UserPublicKey := "" },
        swapCall c
          { Route := route
            UserPublicKey := p.UserPublicKey
            WrapUnwrapSol := some true
            FeeAccount := p.FeeAccount
            AsLegacyTransaction := some true
            ComputeUnitPriceMicroLamports := none
            DestinationWallet := p.DestinationPublicKey }] := by
  generalize hqp : ({ InputMint := p.InputMint
                      OutputMint := p.OutputMint
                      Amount := p.Amount
                      SwapMode := if p.SwapMode = "" then SwapModeExactIn else p.SwapMode
                      SlippageBps := 0
                      FeeBps := p.FeeAmount
                      OnlyDirectRoutes := false
                      AsLegacyTransaction := false
                      UserPublicKey := "" } : QuoteParams) = qp
  have hunfold : Client.BestSwap env c p log =
      (match Client.Quote env c qp log with
      | ((_, some err), log) => (("", some err), log)
      | ((routes, none), log) =>
        match GetBestRoute routes with
        | (_, some err) => (("", some err), log)
        | (route, none) =>
          match Client.Swap env c
              { Route := route
                UserPublicKey := p.UserPublicKey
                DestinationWallet := p.DestinationPublicKey
                FeeAccount := p.FeeAccount
                WrapUnwrapSol := some true
                AsLegacyTransaction := some true
                ComputeUnitPriceMicroLamports := none } log with
          | ((_, some err), log) => (("", some err), log)
          | ((swap, none), log) => ((swap, none), log)) := by
    rw [← hqp]
    unfold Client.BestSwap
    by_cases hm : p.SwapMode = ""
    · simp [hm]
    · simp [hm]
  have hlog := Client.Quote_log env c qp log
  rw [hunfold]
  rcases hq : Client.Quote env c qp log with ⟨⟨routes, e⟩, log1⟩
  rw [hq] at hlog
  simp only at hlog
  subst hlog
  cases e with
  | some err => left; rfl
  | none =>
    simp only
    rcases hg : GetBestRoute routes with ⟨route, ge⟩
    cases ge with
    | some err => left; rfl
    | none =>
      right
      refine ⟨route, ?_⟩
      simp only
      have hslog := Client.Swap_log env c
        { Route := route
          UserPublicKey := p.UserPublicKey
          DestinationWallet := p.DestinationPublicKey
          FeeAccount := p.FeeAccount
          WrapUnwrapSol := some true
          AsLegacyTransaction := some true
          ComputeUnitPriceMicroLamports := none } (log ++ [quoteCall c qp])
      rcases hs : Client.Swap env c
        { Route := route
          UserPublicKey := p.UserPublicKey
          DestinationWallet := p.DestinationPublicKey
          FeeAccount := p.FeeAccount
          WrapUnwrapSol := some true
          AsLegacyTransaction := some true
          ComputeUnitPriceMicroLamports := none } (log ++ [quoteCall c qp])
        with ⟨⟨tx, se⟩, log2⟩
      rw [hs] at hslog
      simp only at hslog
      cases se with
      | none => simpa using hslog
      | some err => simpa using hslog

/-- C13 (evaluation of the code at the failing input): the quote of `BestSwap` never asks
for legacy-only routes (`AsLegacyTransaction` false) while every swap it sends asks for a
legacy transaction.  With the parameters of `TestBestSwap` and a successful quote, the two
requests are a quote with `AsLegacyTransaction` false and a swap with `AsLegacyTransaction`
true. -/
theorem BestSwap_legacy_flag_unpaired (env : Env) (c : Client) (p : BestSwapParams)
    (log : List Call) :
    ((Client.BestSwap env c p log).2 =
        log ++ [quoteCall c
          { InputMint := p.InputMint
            OutputMint := p.OutputMint
            Amount := p.Amount
            SwapMode := if p.SwapMode = "" then SwapModeExactIn else p.SwapMode
            SlippageBps := 0
            FeeBps := p.FeeAmount
            OnlyDirectRoutes := false
            AsLegacyTransaction := false
            UserPublicKey := "" }] ∨
      ∃ route : Route, (Client.BestSwap env c p log).2 =
        log ++ [quoteCall c
          { InputMint := p.InputMint
            OutputMint := p.OutputMint
            Amount := p.Amount
            SwapMode := if p.SwapMode = "" then SwapModeExactIn else p.SwapMode
            SlippageBps := 0
            FeeBps := p.FeeAmount
            OnlyDirectRoutes := false
            AsLegacyTransaction := false
            UserPublicKey := "" },
          swapCall c
            { Route := route
              UserPublicKey := p.UserPublicKey
              WrapUnwrapSol := some true
              FeeAccount := p.FeeAccount
              AsLegacyTransaction := some true
              ComputeUnitPriceMicroLamports := none
              DestinationWallet := p.DestinationPublicKey }]) ∧
    (Client.BestSwap (constEnv 200 "tx" [routeAmounts "1" "100000"]) NewClient
        exampleBestSwapParams []) =
      (("tx", none),
        [quoteCall NewClient
          { InputMint := "So11111111111111111111111111111111111111112"
            OutputMint := "EPjFWdd5AufqSSqeM2qN1xzybapC8G4wEGGkZwyTDt1v"
            Amount := 100000
            SwapMode := "ExactIn"
            SlippageBps := 0
            FeeBps := 0
            OnlyDirectRoutes := false
            AsLegacyTransaction := false
            UserPublicKey := "" },
          swapCall NewClient
            { Route := routeAmounts "1" "100000"
              UserPublicKey := "8HwPMNxtFDrvxXn1fJsAYB258TnA6Ydr1DWCtVYgRW4W"
              WrapUnwrapSol := some true
              FeeAccount := ""
              AsLegacyTransaction := some true
              ComputeUnitPriceMicroLamports := none
              DestinationWallet := "" }]) :=
  ⟨Client.BestSwap_log_cases env c p log, by decide⟩

theorem Client.Quote_result_error_ne (env : Env) (rt : Except Error HttpResponse) :
    (Client.Quote.result env rt).2 ≠ some Error.ErrNoRoute := by
  unfold Client.Quote.result
  cases rt with
  | error err => simp
  | ok resp =>
    simp only
    cases Client.parseResponse env resp with
    | error err => simp
    | ok data =>
      simp only
      cases env.decodeQuotes data with
      | error err => simp
      | ok quotes =>
        simp only
        split <;> simp

theorem Client.Swap_result_error_ne (env : Env) (rt : Except Error HttpResponse) :
    (Client.Swap.result env rt).2 ≠ some Error.ErrNoRoute := by
  unfold Client.Swap.result
  cases rt with
  | error err => simp
  | ok resp =>
    simp only
    split
    · simp [unexpectedStatus]
    · cases env.decodeSwap resp.Body with
      | error err => simp
      | ok r => simp

theorem Client.ExchangeRate.amounts_error_ne (result : Rate) (route : Route) :
    (Client.ExchangeRate.amounts result route).2 ≠ some Error.ErrNoRoute := by
  unfold Client.ExchangeRate.amounts
  cases ParseInt route.InAmount with
  | error err => simp
  | ok inAmount =>
    simp only
    cases ParseInt route.OutAmount with
    | error err => simp
    | ok outAmount => simp

/-- C14: for every outcome of the transport, a `Quote` that returns the nil error is
followed by a `GetBestRoute` that returns the nil error, and neither `BestSwap` nor
`ExchangeRate` returns the error `ErrNoRoute`. -/
theorem ErrNoRoute_unreachable (env : Env) (c : Client) (log : List Call) :
    (∀ qp : QuoteParams, (Client.Quote env c qp log).1.2 = none →
      (GetBestRoute (Client.Quote env c qp log).1.1).2 = none) ∧
    (∀ p : BestSwapParams, (Client.BestSwap env c p log).1.2 ≠ some Error.ErrNoRoute) ∧
    (∀ p : ExchangeRateParams,
      (Client.ExchangeRate env c p log).1.2 ≠ some Error.ErrNoRoute) := by
  have hq : ∀ qp : QuoteParams, (Client.Quote env c qp log).1.2 = none →
      (GetBestRoute (Client.Quote env c qp log).1.1).2 = none := by
    intro qp h
    exact (GetBestRoute_none_iff _).mpr (Client.Quote_ok_nonempty env c qp log h)
  have hqe : ∀ qp : QuoteParams, (Client.Quote env c qp log).1.2 ≠ some Error.ErrNoRoute := by
    intro qp
    rw [Client.Quote_eq]
    exact Client.Quote_result_error_ne env _
  have hse : ∀ (sp : SwapParams) (l : List Call),
      (Client.Swap env c sp l).1.2 ≠ some Error.ErrNoRoute := by
    intro sp l
    rw [Client.Swap_eq]
    exact Client.Swap_result_error_ne env _
  refine ⟨hq, ?_, ?_⟩
  · intro p
    have key : ∀ qp : QuoteParams,
        (match Client.Quote env c qp log with
        | ((_, some err), log) => ((("" : String), some err), log)
        | ((routes, none), log) =>
          match GetBestRoute routes with
          | (_, some err) => (("", some err), log)
          | (route, none) =>
            match Client.Swap env c
                { Route := route
                  UserPublicKey := p.UserPublicKey
                  DestinationWallet := p.DestinationPublicKey
                  FeeAccount := p.FeeAccount
                  WrapUnwrapSol := some true
                  AsLegacyTransaction := some true
                  ComputeUnitPriceMicroLamports := none } log with
            | ((_, some err), log) => (("", some err), log)
            | ((swap, none), log) => ((swap, none), log)).1.2 ≠ some Error.ErrNoRoute := by
      intro qp
      have h1 := hq qp
      have h2 := hqe qp
      rcases hquote : Client.Quote env c qp log with ⟨⟨routes, e⟩, log1⟩
      rw [hquote] at h1 h2
      simp only at h1 h2
      cases e with
      | some err => simpa using h2
      | none =>
        simp only
        have hg := h1 rfl
        rcases hbest : GetBestRoute routes with ⟨route, ge⟩
        rw [hbest] at hg
        simp only at hg
        subst hg
        simp only
        have h3 := hse
          { Route := route
            UserPublicKey := p.UserPublicKey
            DestinationWallet := p.DestinationPublicKey
            FeeAccount := p.FeeAccount
            WrapUnwrapSol := some true
            AsLegacyTransaction := some true
            ComputeUnitPriceMicroLamports := none } log1
        rcases hswap : Client.Swap env c
          { Route := route
            UserPublicKey := p.UserPublicKey
            DestinationWallet := p.DestinationPublicKey
            FeeAccount := p.FeeAccount
            WrapUnwrapSol := some true
            AsLegacyTransaction := some true
            ComputeUnitPriceMicroLamports := none } log1 with ⟨⟨tx, se⟩, log2⟩
        rw [hswap] at h3
        cases se with
        | none => simp
        | some err => simpa using h3
    unfold Client.BestSwap
    by_cases hm : p.SwapMode = ""
    · simp only [hm, if_true]
      exact key _
    · simp only [hm, if_false]
      exact key _
  · intro p
    unfold Client.ExchangeRate
    simp only
    have h1 := hq
      { InputMint := p.InputMint
        OutputMint := p.OutputMint
        Amount := p.Amount
        SwapMode := p.SwapMode
        OnlyDirectRoutes := false
        SlippageBps := 0
        FeeBps := 0
        AsLegacyTransaction := false
        UserPublicKey := "" }
    have h2 := hqe
      { InputMint := p.InputMint
        OutputMint := p.OutputMint
        Amount := p.Amount
        SwapMode := p.SwapMode
        OnlyDirectRoutes := false
        SlippageBps := 0
        FeeBps := 0
        AsLegacyTransaction := false
        UserPublicKey := "" }
    rcases hquote : Client.Quote env c
      { InputMint := p.InputMint
        OutputMint := p.OutputMint
        Amount := p.Amount
        SwapMode := p.SwapMode
        OnlyDirectRoutes := false
        SlippageBps := 0
        FeeBps := 0
        AsLegacyTransaction := false
        UserPublicKey := "" } log with ⟨⟨routes, e⟩, log1⟩
    rw [hquote] at h1 h2
    simp only at h1 h2
    cases e with
    | some err => simpa using h2
    | none =>
      simp only
      have hg := h1 rfl
      rcases hbest : GetBestRoute routes with ⟨route, ge⟩
      rw [hbest] at hg
      simp only at hg
      subst hg
      simp only
      exact Client.ExchangeRate.amounts_error_ne _ _

/-- Witness of C14: with a quote that decodes to no route, `BestSwap` and `ExchangeRate`
fail with the error of `Quote`, and with a quote of one route `GetBestRoute` succeeds. -/
theorem ErrNoRoute_unreachable_witness :
    (GetBestRoute (Client.Quote (constEnv 200 "" [routeAmounts "1" "100000"]) NewClient
      exampleQuoteParams []).1.1).2 = none ∧
    (Client.BestSwap (constEnv 200 "[]" []) NewClient exampleBestSwapParams []).1.2
      ≠ some Error.ErrNoRoute ∧
    (Client.ExchangeRate (constEnv 200 "[]" []) NewClient exampleRateParams []).1.2
      ≠ some Error.ErrNoRoute :=
  ⟨(ErrNoRoute_unreachable (constEnv 200 "" [routeAmounts "1" "100000"]) NewClient []).1
      exampleQuoteParams (by decide),
    (ErrNoRoute_unreachable (constEnv 200 "[]" []) NewClient []).2.1 exampleBestSwapParams,
    (ErrNoRoute_unreachable (constEnv 200 "[]" []) NewClient []).2.2 exampleRateParams⟩

/-- An empty route collection surfaces in the composite operations as the error of `Quote`,
"no quotes returned". -/
theorem empty_quote_surfaces :
    (Client.BestSwap (constEnv 200 "[]" []) NewClient exampleBestSwapParams []).1
      = ("", some (Error.errorf "no quotes returned")) ∧
    (Client.ExchangeRate (constEnv 200 "[]" []) NewClient exampleRateParams []).1.2
      = some (Error.errorf "no quotes returned") := by
  refine ⟨by decide, by decide⟩

end Jupiter
